import Mathlib

/-!
Verification of the RGS (React Globo State) core against its specification.

This file gives a shallow embedding, in Lean 4, of the parts of the
repository relevant to the frozen claims:

* the value model and deep equality (src/core/store.ts, isEqual, lines 117-133),
* input validation and sanitization (src/core/security.ts, validateKey line 272,
  sanitizeValue lines 224-265),
* role based access control (src/core/security.ts, hasPermission lines 185-215,
  addAccessRule lines 173-175; the store instance copy at src/core/store.ts
  lines 635-651 differs only by a regex cache),
* the versioned store with hooks, watchers, listeners, computed values and
  transactions (src/core/store.ts, createStore lines 138-734), and
* the offline sync engine (src/core/sync.ts, SyncEngine lines 86-439).

Store values in JavaScript are primitives, arrays and plain objects; they are
modelled by the mutual inductive type Value below.  JavaScript reference
semantics do not appear in the model: every stored value is produced by a
structural deep clone followed by a deep freeze (store.ts lines 439, 57-109),
so cloning and freezing are the identity on the structural content and are
kept as explicitly named identity functions.  NaN is a distinct constructor
because the JavaScript comparison NaN === NaN is false, which is observable
through isEqual.  The undefined value is a distinct constructor because a
missing key reads as undefined (store.ts line 485).

Callbacks (plugin hooks, watchers, listeners) cannot re-enter the store in
this model: hooks are pure functions that may succeed or throw, and watcher
and listener callbacks are identified by integer ids with a flag saying
whether they throw.  Their observable behaviour - which notifications fire,
in which order, and which errors are reported to the error channel - is
recorded in an event trace carried by the store state.  Exceptions
propagating through the otherwise mutation based control flow are modelled
by returning the state at the moment of the throw together with the error.
-/

namespace RGS

/-! JavaScript values stored in the store: undefined, null, booleans, numbers
(integers suffice for the claims; NaN is kept separate because it is not
equal to itself), strings, arrays and plain objects.  Arrays and objects are
given as mutual inductives so that all functions over them can be compiled
by structural recursion. -/
mutual
inductive Value where
  | undef : Value
  | vnull : Value
  | vbool : Bool → Value
  | vnum : Int → Value
  | vnan : Value
  | vstr : String → Value
  | varr : ValueList → Value
  | vobj : ValueFields → Value

inductive ValueList where
  | nil : ValueList
  | cons : Value → ValueList → ValueList

inductive ValueFields where
  | nil : ValueFields
  | cons : String → Value → ValueFields → ValueFields
end

/-- JavaScript strict equality (===) on the modelled values.  For NaN it is
false (NaN === NaN is false); arrays and objects compare by reference, and
every comparison performed by the embedded code compares a freshly cloned
value against a previously stored one, so the object case is false. -/
def strictEq : Value → Value → Bool
  | .undef, .undef => true
  | .vnull, .vnull => true
  | .vbool a, .vbool b => a == b
  | .vnum a, .vnum b => a == b
  | .vstr a, .vstr b => a == b
  | _, _ => false

/-- Lookup of an object property by name (first binding wins, as in a
JavaScript object, which cannot have duplicate keys). -/
def ValueFields.get? : ValueFields → String → Option Value
  | .nil, _ => none
  | .cons k v rest, key => if k = key then some v else rest.get? key

/-- Number of elements of a modelled array. -/
def ValueList.length : ValueList → Nat
  | .nil => 0
  | .cons _ rest => 1 + rest.length

/-- Number of properties of a modelled object. -/
def ValueFields.length : ValueFields → Nat
  | .nil => 0
  | .cons _ _ rest => 1 + rest.length

/-- Indexing into a modelled array. -/
def ValueList.get? : ValueList → Nat → Option Value
  | .nil, _ => none
  | .cons v _, 0 => some v
  | .cons _ rest, n + 1 => rest.get? n

/-- Index j below n whose decimal print equals the property name k, if any:
this is how an array element is found when an array is compared against a
plain object through Object.keys (array keys are the index strings). -/
def arrIndexOf (n : Nat) (k : String) : Option Nat :=
  (List.range n).find? (fun j => toString j = k)

/-! Deep equality, translated from isEqual (src/core/store.ts lines 117-133):
the strict equality shortcut, the null guard, the primitive fallthrough, an
elementwise array branch, and an Object.keys based branch comparing key
counts, key membership and the values at each key.  Mixed array and object
operands reach the Object.keys branch, where array keys are index strings.
isEqualFields iterates the keys of the left operand, requiring membership
and a recursively equal value in the right operand, after the length check
mirrors the keysA.length !== keysB.length test. -/
mutual

def isEqual : Value → Value → Bool
  | a, b =>
    if strictEq a b then true
    else
      match a, b with
      | .vnull, _ => false
      | _, .vnull => false
      | .varr xs, .varr ys => xs.length == ys.length && isEqualList xs ys
      | .varr xs, .vobj fb => xs.length == fb.length && isEqualArrFields 0 xs fb
      | .vobj fa, .varr ys => fa.length == ys.length && isEqualFieldsArr fa ys
      | .vobj fa, .vobj fb => fa.length == fb.length && isEqualFields fa fb
      | _, _ => false
termination_by structural a => a

def isEqualList : ValueList → ValueList → Bool
  | .nil, .nil => true
  | .cons x xs, .cons y ys => isEqual x y && isEqualList xs ys
  | _, _ => false
termination_by structural l => l

def isEqualFields : ValueFields → ValueFields → Bool
  | .nil, _ => true
  | .cons k va rest, fb =>
    (match fb.get? k with
     | some vb => isEqual va vb
     | none => false) && isEqualFields rest fb
termination_by structural l => l

def isEqualArrFields : Nat → ValueList → ValueFields → Bool
  | _, .nil, _ => true
  | i, .cons x xs, fb =>
    (match fb.get? (toString i) with
     | some vb => isEqual x vb
     | none => false) && isEqualArrFields (i + 1) xs fb
termination_by structural _ l => l

def isEqualFieldsArr : ValueFields → ValueList → Bool
  | .nil, _ => true
  | .cons k va rest, ys =>
    (match arrIndexOf ys.length k with
     | some j =>
       (match ys.get? j with
        | some vb => isEqual va vb
        | none => false)
     | none => false) && isEqualFieldsArr rest ys
termination_by structural l => l

end

/-! Sanitization (src/core/security.ts, sanitizeValue lines 224-265).  The
source applies, in order, fifteen global regex replacements to every string:
a script tag pattern, the case-insensitive literals javascript:,
data:text/html and vbscript:, inline handler attributes (on word characters
followed by optional whitespace and an equals sign, replaced keeping the
equals sign), nine further paired tag patterns (iframe, object, embed, svg,
form, base, link, meta, style) and finally numeric HTML entity removal.
Each JavaScript regex is deterministic on its inputs (character classes
never overlap across a choice point), so each is transcribed as a scanner
returning how many characters the match at the current position consumes;
the global replacement walks left to right, emitting the replacement and
skipping the match, exactly as String.prototype.replace with the g flag. -/

/-- Word characters, as in the JavaScript regex class backslash-w. -/
def isWordChar (c : Char) : Bool := c.isAlpha || c.isDigit || c = '_'

/-- Whitespace, as in the JavaScript regex class backslash-s (ASCII part). -/
def isSpaceJS (c : Char) : Bool :=
  c = ' ' || c = '\t' || c = '\n' || c = '\r' || c = '\x0b' || c = '\x0c'

/-- Hexadecimal digit, for the numeric entity pattern. -/
def isHexDigit (c : Char) : Bool :=
  c.isDigit || ('a' ≤ c && c ≤ 'f') || ('A' ≤ c && c ≤ 'F')

/-- Case-insensitive prefix match of a lowercased pattern; returns the
remaining input on success. -/
def ciPrefix? : List Char → List Char → Option (List Char)
  | [], s => some s
  | _ :: _, [] => none
  | p :: ps, c :: cs => if c.toLower = p then ciPrefix? ps cs else none

/-- Length of the leading run of characters other than a left angle bracket
(the character class excluding the angle bracket in the tag patterns). -/
def countNonLt : List Char → Nat
  | [] => 0
  | c :: cs => if c = '<' then 0 else 1 + countNonLt cs

/-- Length of the leading run of word characters. -/
def countWord : List Char → Nat
  | [] => 0
  | c :: cs => if isWordChar c then 1 + countWord cs else 0

/-- Length of the leading run of whitespace characters. -/
def countSpaceJS : List Char → Nat
  | [] => 0
  | c :: cs => if isSpaceJS c then 1 + countSpaceJS cs else 0

/-- Length of the leading run of hexadecimal digits. -/
def countHex : List Char → Nat
  | [] => 0
  | c :: cs => if isHexDigit c then 1 + countHex cs else 0

/-- Matcher for a case-insensitive literal pattern (given lowercased):
consumes exactly the pattern length. -/
def ciLitMatch (pat : List Char) (s : List Char) : Option Nat :=
  match ciPrefix? pat s with
  | some _ => some pat.length
  | none => none

/-- Scanner for the tail of a paired tag pattern: after the leading
non-angle-bracket run, the pattern repeats groups consisting of an angle
bracket that does not begin the closing tag followed by a non-angle-bracket
run, and ends at the closing tag.  Returns the number of characters
consumed from the current position through the end of the closing tag.
The fuel argument only bounds the recursion; each step consumes at least
one character, so fuel equal to the input length always suffices. -/
def tagClose (cname : List Char) : Nat → List Char → Option Nat
  | _, [] => none
  | 0, _ => none
  | f + 1, c :: cs =>
    if c = '<' then
      match ciPrefix? ('/' :: cname ++ ['>']) cs with
      | some _ => some (cname.length + 3)
      | none =>
        let n := countNonLt cs
        match tagClose cname f (List.drop n cs) with
        | some m => some (1 + n + m)
        | none => none
    else none

/-- Matcher for a paired tag pattern such as the script tag pattern: an
opening angle bracket, the tag name case-insensitively, a word boundary,
a run of non-angle-bracket characters, then the tagClose tail. -/
def tagMatch (cname : List Char) (s : List Char) : Option Nat :=
  match ciPrefix? ('<' :: cname) s with
  | none => none
  | some rest =>
    let bOk : Bool := match rest with
      | [] => true
      | r :: _ => ! isWordChar r
    if bOk then
      let n := countNonLt rest
      match tagClose cname rest.length (List.drop n rest) with
      | some m => some (1 + cname.length + n + m)
      | none => none
    else none

/-- Matcher for the inline handler pattern: the letters o and n in either
case, at least one word character, optional whitespace, an equals sign. -/
def onHandlerMatch : List Char → Option Nat
  | c1 :: c2 :: rest =>
    if c1.toLower = 'o' && c2.toLower = 'n' then
      let n := countWord rest
      if n = 0 then none
      else
        let m := countSpaceJS (List.drop n rest)
        match List.drop m (List.drop n rest) with
        | '=' :: _ => some (2 + n + m + 1)
        | _ => none
    else none
  | _ => none

/-- One if the input starts with a semicolon (the optional trailing
semicolon of the entity pattern), zero otherwise. -/
def semiLen : List Char → Nat
  | ';' :: _ => 1
  | _ => 0

/-- Matcher for the numeric HTML entity pattern: ampersand, hash, an
optional x in either case, at least one hexadecimal digit, an optional
semicolon.  When the optional x is present but no digit follows it, the
regex backtracks to reading the x itself as a digit, which fails; both
paths are reflected below. -/
def entityMatch : List Char → Option Nat
  | '&' :: '#' :: rest =>
    (match rest with
     | [] => none
     | x :: r2 =>
       let hx := countHex r2
       if (x = 'x' || x = 'X') && hx ≠ 0 then
         some (3 + hx + semiLen (List.drop hx r2))
       else
         let h0 := countHex rest
         if h0 ≠ 0 then some (2 + h0 + semiLen (List.drop h0 rest)) else none)
  | _ => none

/-- Fuelled global replacement: at each position, if the matcher accepts a
nonempty match, emit the replacement and continue after the match,
otherwise keep the character and move on.  Fuel equal to the input length
always suffices because every step consumes at least one character. -/
def replaceAllF (m : List Char → Option Nat) (rep : List Char) : Nat → List Char → List Char
  | 0, s => s
  | f + 1, s =>
    match s with
    | [] => []
    | c :: cs =>
      match m s with
      | some (n + 1) => rep ++ replaceAllF m rep f (List.drop (n + 1) s)
      | _ => c :: replaceAllF m rep f cs

/-- Global replacement over a character list. -/
def replaceAll (m : List Char → Option Nat) (rep : List Char) (s : List Char) : List Char :=
  replaceAllF m rep s.length s

/-- Replacement text used by the sanitizer. -/
def secRemoved : List Char := "[SEC-REMOVED]".data

/-- String sanitization: the fifteen replacement passes of sanitizeValue
(src/core/security.ts lines 227-242), in source order. -/
def sanitizeString (s : String) : String :=
  let l1 := replaceAll (tagMatch "script".data) secRemoved s.data
  let l2 := replaceAll (ciLitMatch "javascript:".data) secRemoved l1
  let l3 := replaceAll (ciLitMatch "data:text/html".data) secRemoved l2
  let l4 := replaceAll (ciLitMatch "vbscript:".data) secRemoved l3
  let l5 := replaceAll onHandlerMatch ("[SEC-REMOVED]=".data) l4
  let l6 := replaceAll (tagMatch "iframe".data) secRemoved l5
  let l7 := replaceAll (tagMatch "object".data) secRemoved l6
  let l8 := replaceAll (tagMatch "embed".data) secRemoved l7
  let l9 := replaceAll (tagMatch "svg".data) secRemoved l8
  let l10 := replaceAll (tagMatch "form".data) secRemoved l9
  let l11 := replaceAll (tagMatch "base".data) secRemoved l10
  let l12 := replaceAll (tagMatch "link".data) secRemoved l11
  let l13 := replaceAll (tagMatch "meta".data) secRemoved l12
  let l14 := replaceAll (tagMatch "style".data) secRemoved l13
  String.mk (replaceAll entityMatch [] l14)

/-! Value sanitization (src/core/security.ts lines 224-265): strings are
passed through the replacement pipeline; plain objects are rebuilt with
every property value sanitized (every modelled object is a plain object);
arrays are mapped elementwise; all other values are returned unchanged. -/
mutual

def sanitizeValue : Value → Value
  | .vstr s => .vstr (sanitizeString s)
  | .vobj fs => .vobj (sanitizeFields fs)
  | .varr xs => .varr (sanitizeList xs)
  | v => v
termination_by structural v => v

def sanitizeList : ValueList → ValueList
  | .nil => .nil
  | .cons v rest => .cons (sanitizeValue v) (sanitizeList rest)
termination_by structural l => l

def sanitizeFields : ValueFields → ValueFields
  | .nil => .nil
  | .cons k v rest => .cons k (sanitizeValue v) (sanitizeFields rest)
termination_by structural l => l

end

/-- Characters allowed in a store key by the validation regex. -/
def isKeyChar (c : Char) : Bool :=
  c.isAlpha || c.isDigit || c = '_' || c = '.' || c = '-'

/-- Key validation (src/core/security.ts line 272): the key must be a
nonempty string of allowed characters of length at most 256. -/
def validateKey (k : String) : Bool :=
  ! k.data.isEmpty && k.data.all isKeyChar && k.length ≤ 256


/-! Role based access control (src/core/security.ts lines 149-215).  A rule
pattern is either a predicate over key and user id, or a regex source
string.  The JavaScript regex engine is external to the model: a string
pattern carries the abstract matching function produced by compiling it,
or none when the source throws on compilation (such a rule is skipped by
the permission check, exactly like the try/catch continue in the source).
Function patterns carry a numeric identity standing for JavaScript
reference identity of the function object, used as the Map key. -/

/-- Permission levels (src/core/security.ts line 149). -/
inductive Permission where
  | read : Permission
  | write : Permission
  | del : Permission
  | admin : Permission
deriving DecidableEq, Repr

/-- Access rule pattern: predicate or regex source with its compiled
matcher (none when compilation throws). -/
inductive Pattern where
  | pfunc : Nat → (String → Option String → Bool) → Pattern
  | pstr : String → Option (String → Bool) → Pattern

/-- Identity of a pattern as a Map key: the source string for regex
patterns, the function identity for predicate patterns. -/
def patternKey : Pattern → String ⊕ Nat
  | .pstr src _ => .inl src
  | .pfunc id _ => .inr id

/-- Whether a pattern matches a key (src/core/security.ts lines 190-204):
a function pattern is applied to key and user id; a string pattern is
tested through its compiled regex, and an invalid regex never matches
(the source skips it with continue). -/
def patMatches (p : Pattern) (key : String) (uid : Option String) : Bool :=
  match p with
  | .pfunc _ f => f key uid
  | .pstr _ none => false
  | .pstr _ (some m) => m key

/-- Rule insertion (src/core/security.ts lines 173-175): Map.set keyed by
the pattern, which updates the permissions in place when the key is
already present and appends otherwise. -/
def addAccessRule (rules : List (Pattern × List Permission)) (p : Pattern)
    (perms : List Permission) : List (Pattern × List Permission) :=
  if rules.any (fun r => patternKey r.1 = patternKey p) then
    rules.map (fun r => if patternKey r.1 = patternKey p then (r.1, perms) else r)
  else rules ++ [(p, perms)]

/-- Iteration of hasPermission over the rule list in insertion order:
the first matching rule decides. -/
def hasPermissionGo : List (Pattern × List Permission) → String → Permission → Option String → Bool
  | [], _, _, _ => false
  | (p, perms) :: rest, key, action, uid =>
    if patMatches p key uid then perms.contains action || perms.contains .admin
    else hasPermissionGo rest key action uid

/-- Permission check (src/core/security.ts lines 185-215): allow-all when
no rules are defined; otherwise the first rule whose pattern matches the
key grants the action exactly when its permission list contains the action
or contains admin, and with no matching rule the check fails closed.  The
store instance copy (src/core/store.ts lines 635-651) differs only by a
per-instance regex cache and computes the same result. -/
def hasPermission (rules : List (Pattern × List Permission)) (key : String)
    (action : Permission) (uid : Option String) : Bool :=
  if rules.isEmpty then true else hasPermissionGo rules key action uid

/-! Store state.  The maps of createStore (src/core/store.ts lines 138-178)
become association lists preserving JavaScript Map insertion order;
Map.set updates in place, Map.delete removes the entry.  Watcher,
listener and plugin callbacks are modelled as described in the header. -/

/-- Association list lookup (JavaScript Map.get). -/
def assoc {α : Type} : List (String × α) → String → Option α
  | [], _ => none
  | (k, v) :: rest, key => if k = key then some v else assoc rest key

/-- Association list update (JavaScript Map.set): an existing key keeps
its position and receives the new value, a new key is appended. -/
def assocSet {α : Type} : List (String × α) → String → α → List (String × α)
  | [], key, v => [(key, v)]
  | (k, w) :: rest, key, v =>
    if k = key then (k, v) :: rest else (k, w) :: assocSet rest key v

/-- Association list removal (JavaScript Map.delete). -/
def assocErase {α : Type} : List (String × α) → String → List (String × α)
  | [], _ => []
  | (k, w) :: rest, key => if k = key then rest else (k, w) :: assocErase rest key

/-- Lifecycle hook names invoked by the store (src/core/store.ts). -/
inductive HookName where
  | onInstall : HookName
  | onBeforeSet : HookName
  | onSet : HookName
  | onGet : HookName
  | onRemove : HookName
  | onDestroy : HookName
  | onTransaction : HookName
deriving DecidableEq, Repr

/-- Printed hook name, used in the error channel operation string. -/
def hookNameStr : HookName → String
  | .onInstall => "onInstall"
  | .onBeforeSet => "onBeforeSet"
  | .onSet => "onSet"
  | .onGet => "onGet"
  | .onRemove => "onRemove"
  | .onDestroy => "onDestroy"
  | .onTransaction => "onTransaction"

/-- Context passed to a hook (the store reference of the source context is
not modelled: hooks here are pure and cannot re-enter the store). -/
structure HookInput where
  key : Option String := none
  value : Option Value := none
  version : Option Nat := none

/-- A plugin: a name and, per hook, an optional pure handler that either
succeeds or throws with a message. -/
structure Plugin where
  name : String
  hooks : HookName → Option (HookInput → Except String Unit)

/-- Observable events: notifications delivered to watcher, per-key and
global subscribers, and reports to the error channel. -/
inductive Event where
  | watcherFired : String → Nat → Event
  | keyListenerFired : String → Nat → Event
  | globalListenerFired : Nat → Event
  | errorReported : String → Option String → Event
deriving DecidableEq, Repr

/-- Whether an event is a subscriber notification (rather than an error
report). -/
def notifEvent : Event → Bool
  | .watcherFired _ _ => true
  | .keyListenerFired _ _ => true
  | .globalListenerFired _ => true
  | .errorReported _ _ => false

/-- Notification subtrace of an event trace. -/
def notifEvents (l : List Event) : List Event := l.filter notifEvent

/-- Selector programs for computed values.  A source selector is an
arbitrary function receiving a recording getter; the claims only need
selectors built from literals, store reads, the JavaScript or-else and
addition operators, an equality conditional, and throwing.  Evaluating a
program records exactly the keys read, in order, reproducing the dynamic
dependency discovery of the source. -/
inductive SExpr where
  | lit : Value → SExpr
  | readKey : String → SExpr
  | orElse : SExpr → SExpr → SExpr
  | addE : SExpr → SExpr → SExpr
  | condEq : SExpr → Value → SExpr → SExpr → SExpr
  | raiseErr : String → SExpr

/-- JavaScript truthiness. -/
def truthy : Value → Bool
  | .undef => false
  | .vnull => false
  | .vbool b => b
  | .vnum n => n != 0
  | .vnan => false
  | .vstr s => ! s.isEmpty
  | _ => true

/-- JavaScript numeric coercion on the fragment used by the selector
programs of this file (none encodes NaN).  String and container coercions
are outside the fragment: the selectors built here never add such values. -/
def jsToNumber : Value → Option Int
  | .vnull => some 0
  | .vbool b => some (if b then 1 else 0)
  | .vnum n => some n
  | _ => none

/-- JavaScript addition on non-string primitive operands. -/
def jsAdd (a b : Value) : Value :=
  match jsToNumber a, jsToNumber b with
  | some x, some y => .vnum (x + y)
  | _, _ => .vnan

/-- A computed entry (src/core/store.ts line 147): selector, cached last
value, dependency set of the most recent evaluation. -/
structure ComputedEntry where
  selector : SExpr
  lastValue : Value
  deps : List String

/-- The state owned by one store instance (the closure of createStore,
src/core/store.ts lines 138-186), together with the event trace.  Watchers
and listeners are callback identities paired with a flag saying whether
the callback throws when invoked. -/
structure StoreState where
  store : List (String × Value)
  versions : List (String × Nat)
  sizes : List (String × Nat)
  totalSize : Int
  diskQueue : List (String × Value)
  listeners : List (Nat × Bool)
  keyListeners : List (String × Nat × Bool)
  watchers : List (String × Nat × Bool)
  computed : List (String × ComputedEntry)
  computedDeps : List (String × List String)
  plugins : List Plugin
  accessRules : List (Pattern × List Permission)
  userId : Option String
  validateInput : Bool
  maxObjectSize : Nat
  maxTotalSize : Nat
  nsName : String
  isTransaction : Bool
  pendingEmit : Bool
  trace : List Event

/-- Value currently stored at a key; a missing key reads as undefined
(src/core/store.ts line 485 returns the raw Map.get result). -/
def storedAt (s : StoreState) (k : String) : Value := ((assoc s.store k).getD .undef)

/-- Version counter of a key, zero when absent. -/
def versionOf (s : StoreState) (k : String) : Nat := (assoc s.versions k).getD 0

/-- Deep structural clone (src/core/store.ts lines 57-109): the identity
on the structural content of a value in a model without references. -/
def deepCloneValue (v : Value) : Value := v

/-- Deep freeze through immer (src/core/store.ts line 439): freezing does
not change the structural content, so this is the identity; the source
applies it to objects and arrays and passes primitives through. -/
def frozenOf (v : Value) : Value := deepCloneValue v

/-- The value a call to set stores for input v: sanitized when input
validation is on, then cloned and frozen (src/core/store.ts lines 435-439). -/
def processedOf (validate : Bool) (v : Value) : Value :=
  frozenOf (if validate then sanitizeValue v else v)

/-! Size estimation walker (src/core/store.ts lines 193-222): booleans
count four bytes, numbers eight, strings two per character, object keys
two per character, arrays and objects the sum of their parts. -/
mutual

def calcSize : Value → Nat
  | .undef => 0
  | .vnull => 0
  | .vbool _ => 4
  | .vnum _ => 8
  | .vnan => 8
  | .vstr s => 2 * s.length
  | .varr xs => calcSizeList xs
  | .vobj fs => calcSizeFields fs
termination_by structural v => v

def calcSizeList : ValueList → Nat
  | .nil => 0
  | .cons v rest => calcSize v + calcSizeList rest
termination_by structural l => l

def calcSizeFields : ValueFields → Nat
  | .nil => 0
  | .cons k v rest => 2 * k.length + calcSize v + calcSizeFields rest
termination_by structural l => l

end

/-- Error events produced by running one lifecycle hook across the plugin
list in registration order (src/core/store.ts lines 235-246): each
throwing handler is caught where it ran and reported to the error channel
with the plugin and hook in the operation string; it never stops the
remaining plugins. -/
def hookEvents (plugins : List Plugin) (name : HookName) (input : HookInput) : List Event :=
  match plugins with
  | [] => []
  | p :: rest =>
    (match p.hooks name with
     | some h =>
       (match h input with
        | .ok _ => []
        | .error _ => [.errorReported ("plugin:" ++ p.name ++ ":" ++ hookNameStr name) input.key])
     | none => []) ++ hookEvents rest name input

/-- Running a lifecycle hook only appends the error reports of throwing
handlers to the trace; it changes nothing else (the try/catch in _runHook
swallows every exception). -/
def runHook (s : StoreState) (name : HookName) (input : HookInput) : StoreState :=
  { s with trace := s.trace ++ hookEvents s.plugins name input }

/-- Read of a key (src/core/store.ts lines 480-489): a denied read returns
null with no other effect; otherwise the raw stored value (undefined when
absent) is returned after the onGet hooks run. -/
def get (s : StoreState) (k : String) : Value × StoreState :=
  if ! hasPermission s.accessRules k .read s.userId then (.vnull, s)
  else
    let v := storedAt s k
    (v, runHook s .onGet { key := some k, value := some v })

/-- Selector evaluation with dependency recording: readKey registers the
key and reads through get, exactly like the recording getter of
_updateComputed (src/core/store.ts line 301); orElse and the conditional
short-circuit, so only the keys actually read are recorded; raiseErr
models a throwing selector. -/
def evalS : SExpr → StoreState → StoreState × List String × Except String Value
  | .lit v, s => (s, [], .ok v)
  | .readKey k, s =>
    let (v, s1) := get s k
    (s1, [k], .ok v)
  | .orElse a b, s =>
    (match evalS a s with
     | (s1, d1, .ok va) =>
       if truthy va then (s1, d1, .ok va)
       else
         (match evalS b s1 with
          | (s2, d2, r) => (s2, d1 ++ d2, r))
     | (s1, d1, .error e) => (s1, d1, .error e))
  | .addE a b, s =>
    (match evalS a s with
     | (s1, d1, .ok va) =>
       (match evalS b s1 with
        | (s2, d2, .ok vb) => (s2, d1 ++ d2, .ok (jsAdd va vb))
        | (s2, d2, .error e) => (s2, d1 ++ d2, .error e))
     | (s1, d1, .error e) => (s1, d1, .error e))
  | .condEq a w tb eb, s =>
    (match evalS a s with
     | (s1, d1, .ok va) =>
       if strictEq va w then
         (match evalS tb s1 with
          | (s2, d2, r) => (s2, d1 ++ d2, r))
       else
         (match evalS eb s1 with
          | (s2, d2, r) => (s2, d1 ++ d2, r))
     | (s1, d1, .error e) => (s1, d1, .error e))
  | .raiseErr m, s => (s, [], .error m)

/-- First-occurrence deduplication pass with the keys already seen. -/
def dedupGo (seen : List String) : List String → List String
  | [] => []
  | k :: rest => if seen.contains k then dedupGo seen rest else k :: dedupGo (seen ++ [k]) rest

/-- First-occurrence deduplication: the key list recorded by a selector
evaluation, viewed as the JavaScript Set it populates. -/
def dedupKeys (l : List String) : List String := dedupGo [] l

/-- Removal of one reverse dependency edge (the stale branch of
_updateComputed, src/core/store.ts lines 303-308): the dependent is
removed from the set of the source key, and an emptied set is deleted. -/
def removeDependentEdge (cd : List (String × List String)) (d key : String) :
    List (String × List String) :=
  match assoc cd d with
  | none => cd
  | some deps =>
    let deps2 := deps.erase key
    if deps2.isEmpty then assocErase cd d else assocSet cd d deps2

/-- Insertion of one reverse dependency edge (the new-edge branch of
_updateComputed, src/core/store.ts lines 309-314). -/
def addDependentEdge (cd : List (String × List String)) (d key : String) :
    List (String × List String) :=
  match assoc cd d with
  | none => cd ++ [(d, [key])]
  | some deps => assocSet cd d (if deps.contains key then deps else deps ++ [key])

/-- Edge maintenance pass of _updateComputed: prune the stale edges of the
previous dependency set, then add the newly discovered ones. -/
def updateDepEdges (cd : List (String × List String)) (key : String)
    (oldDeps newDeps : List String) : List (String × List String) :=
  let pruned := oldDeps.foldl
    (fun acc d => if newDeps.contains d then acc else removeDependentEdge acc d key) cd
  newDeps.foldl
    (fun acc d => if oldDeps.contains d then acc else addDependentEdge acc d key) pruned

/-- Watcher notification loop of _emit (src/core/store.ts lines 266-273):
each watcher of the changed key receives the current value read through
get (running the onGet hooks per watcher); a throwing watcher is caught
and reported, never stopping the remaining watchers. -/
def notifyWatchers : List (Nat × Bool) → String → StoreState → StoreState
  | [], _, s => s
  | (id, fl) :: rest, key, s =>
    let (_, s1) := get s key
    let s2 := { s1 with trace := s1.trace ++ [Event.watcherFired key id] ++
      (if fl then [Event.errorReported "watcher" (some key)] else []) }
    notifyWatchers rest key s2

/-- Per-key listener notification loop of _emit (src/core/store.ts lines
274-281), with the same isolation of throwing callbacks. -/
def notifyKeyListeners : List (Nat × Bool) → String → StoreState → StoreState
  | [], _, s => s
  | (id, fl) :: rest, key, s =>
    let s1 := { s with trace := s.trace ++ [Event.keyListenerFired key id] ++
      (if fl then [Event.errorReported "keyListener" (some key)] else []) }
    notifyKeyListeners rest key s1

/-- Global listener notification loop of _emit (src/core/store.ts lines
284-291), with the same isolation of throwing callbacks. -/
def notifyGlobals : List (Nat × Bool) → StoreState → StoreState
  | [], s => s
  | (id, fl) :: rest, s =>
    let s1 := { s with trace := s.trace ++ [Event.globalListenerFired id] ++
      (if fl then [Event.errorReported "listener" none] else []) }
    notifyGlobals rest s1

/-- Watchers registered for a key, in registration order. -/
def watchersFor (s : StoreState) (key : String) : List (Nat × Bool) :=
  (s.watchers.filter (fun w => w.1 = key)).map (fun w => w.2)

/-- Per-key listeners registered for a key, in registration order. -/
def keyListenersFor (s : StoreState) (key : String) : List (Nat × Bool) :=
  (s.keyListeners.filter (fun w => w.1 = key)).map (fun w => w.2)

/-! Change notification and incremental recomputation, a mutual recursion
between _emit and _updateComputed (src/core/store.ts lines 263-320).  The
source recursion is bounded only by value convergence of the computed
graph; the model adds a fuel argument, decremented exactly at the
recursive notification inside _updateComputed.  Exhausted fuel surfaces as
an error that no scenario of this file reaches, and universal statements
below hold for every fuel.  An exception raised by a selector during the
dependent loop propagates immediately (there is no try/catch on the
_updateComputed path), skipping the remaining dependents, the watcher and
listener notifications, and the caller of set. -/
/-- Error message of the artificial fuel bound (see the preceding
comment); no scenario in this file reaches it. -/
def fuelMsg : String := "model: notification fuel exhausted"

mutual

def emit : Nat → StoreState → Option String → StoreState × Option String
  | 0, s, _ => (s, some fuelMsg)
  | f + 1, s, some ck =>
    (match runDependents f ((assoc s.computedDeps ck).getD []) s with
     | (s1, some e) => (s1, some e)
     | (s1, none) =>
       let s2 := notifyWatchers (watchersFor s1 ck) ck s1
       let s3 := notifyKeyListeners (keyListenersFor s2 ck) ck s2
       if s3.isTransaction then ({ s3 with pendingEmit := true }, none)
       else (notifyGlobals s3.listeners s3, none))
  | _ + 1, s, none =>
    if s.isTransaction then ({ s with pendingEmit := true }, none)
    else (notifyGlobals s.listeners s, none)
termination_by structural fuel _ _ => fuel

def runDependents : Nat → List String → StoreState → StoreState × Option String
  | 0, _, s => (s, some fuelMsg)
  | _ + 1, [], s => (s, none)
  | f + 1, d :: rest, s =>
    (match updateComputed f s d with
     | (s1, some e) => (s1, some e)
     | (s1, none) => runDependents f rest s1)
termination_by structural fuel _ _ => fuel

def updateComputed : Nat → StoreState → String → StoreState × Option String
  | 0, s, _ => (s, some fuelMsg)
  | f + 1, s, key =>
    (match assoc s.computed key with
     | none => (s, none)
     | some comp =>
       (match evalS comp.selector s with
        | (s1, _, .error e) => (s1, some e)
        | (s1, depsRaw, .ok newValue) =>
          let depsFound := dedupKeys depsRaw
          let s2 := { s1 with
            computedDeps := updateDepEdges s1.computedDeps key comp.deps depsFound,
            computed := assocSet s1.computed key
              { selector := comp.selector, lastValue := comp.lastValue, deps := depsFound } }
          if isEqual comp.lastValue newValue then (s2, none)
          else
            let s3 := { s2 with
              computed := assocSet s2.computed key
                { selector := comp.selector, lastValue := frozenOf newValue, deps := depsFound },
              versions := assocSet s2.versions key (versionOf s2 key + 1) }
            emit f s3 (some key)))
termination_by structural fuel _ _ => fuel

end

/-- Outcome of a call to set: a normal return with the committed flag, or
an exception propagating to the caller. -/
inductive SetOutcome where
  | ok : Bool → SetOutcome
  | threw : String → SetOutcome
deriving DecidableEq, Repr

/-- Write of a key (src/core/store.ts lines 430-474, called with a literal
value and an options object carrying only the persist flag).  In source
order: key validation (reject invalid keys when input validation is on),
the write permission gate, sanitization, the onBeforeSet hooks, clone and
freeze, the deep equality no-op guard, size accounting with advisory limit
warnings, the commit into the store with version bump, the optional disk
queue entry, the onSet hooks, and the notification pass, whose exceptions
propagate to the caller. -/
def set (fuel : Nat) (s : StoreState) (key : String) (v : Value) (persist : Bool) :
    StoreState × SetOutcome :=
  let oldVal := storedAt s key
  if s.validateInput && ! validateKey key then (s, .ok false)
  else if ! hasPermission s.accessRules key .write s.userId then (s, .ok false)
  else
    let sani := if s.validateInput then sanitizeValue v else v
    let oldSize := (assoc s.sizes key).getD 0
    let s1 := runHook s .onBeforeSet
      { key := some key, value := some sani, version := some (versionOf s key) }
    let frozen := frozenOf sani
    if isEqual oldVal frozen then (s1, .ok false)
    else
      let finalSize := if s.maxObjectSize > 0 || s.maxTotalSize > 0 then calcSize frozen else 0
      let warn1 : List Event :=
        if s.maxObjectSize > 0 && decide (s.maxObjectSize < finalSize) then
          [.errorReported "set" (some key)] else []
      let warn2 : List Event :=
        if s.maxTotalSize > 0 &&
            decide ((s.maxTotalSize : Int) < s.totalSize - (oldSize : Int) + (finalSize : Int)) then
          [.errorReported "set" none] else []
      let s2 := { s1 with
        trace := s1.trace ++ warn1 ++ warn2,
        totalSize := s1.totalSize - (oldSize : Int) + (finalSize : Int),
        sizes := assocSet s1.sizes key finalSize,
        store := assocSet s1.store key frozen,
        versions := assocSet s1.versions key (versionOf s1 key + 1),
        diskQueue := if persist then assocSet s1.diskQueue key frozen else s1.diskQueue }
      let s3 := runHook s2 .onSet
        { key := some key, value := some frozen, version := some (versionOf s2 key) }
      (match emit fuel s3 (some key) with
       | (s4, some e) => (s4, .threw e)
       | (s4, none) => (s4, .ok true))

/-- The state set passes to the notification pass on the committed path:
the onBeforeSet hook trace, the size warnings, the size accounting, the
store and version updates, the optional disk queue entry, and the onSet
hook trace - exactly the lets of the commit branch of set. -/
def commitPre (s : StoreState) (k : String) (v : Value) (p : Bool) : StoreState :=
  let sani := if s.validateInput then sanitizeValue v else v
  let oldSize := (assoc s.sizes k).getD 0
  let s1 := runHook s .onBeforeSet
    { key := some k, value := some sani, version := some (versionOf s k) }
  let frozen := frozenOf sani
  let finalSize := if s.maxObjectSize > 0 || s.maxTotalSize > 0 then calcSize frozen else 0
  let warn1 : List Event :=
    if s.maxObjectSize > 0 && decide (s.maxObjectSize < finalSize) then
      [.errorReported "set" (some k)] else []
  let warn2 : List Event :=
    if s.maxTotalSize > 0 &&
        decide ((s.maxTotalSize : Int) < s.totalSize - (oldSize : Int) + (finalSize : Int)) then
      [.errorReported "set" none] else []
  let s2 := { s1 with
    trace := s1.trace ++ warn1 ++ warn2,
    totalSize := s1.totalSize - (oldSize : Int) + (finalSize : Int),
    sizes := assocSet s1.sizes k finalSize,
    store := assocSet s1.store k frozen,
    versions := assocSet s1.versions k (versionOf s1 k + 1),
    diskQueue := if p then assocSet s1.diskQueue k frozen else s1.diskQueue }
  runHook s2 .onSet { key := some k, value := some frozen, version := some (versionOf s2 k) }

/-- Registration or cached read of a computed value (src/core/store.ts
lines 496-506): a first call registers the entry with a null cached value
and evaluates it eagerly; a later call returns the cached value without
re-evaluation.  The try/catch around the body catches an exception from
the eager initial evaluation, reports it to the error channel with the
compute operation, and returns null; the entry stays registered. -/
def compute (fuel : Nat) (s : StoreState) (key : String) (sel : SExpr) :
    StoreState × Value :=
  match assoc s.computed key with
  | some comp => (s, comp.lastValue)
  | none =>
    let s1 := { s with computed :=
      s.computed ++ [(key, { selector := sel, lastValue := .vnull, deps := [] })] }
    (match updateComputed fuel s1 key with
     | (s2, some _) =>
       ({ s2 with trace := s2.trace ++ [.errorReported "compute" (some key)] }, .vnull)
     | (s2, none) => (s2, ((assoc s2.computed key).map (fun c => c.lastValue)).getD .vnull))

/-- Silent initialization write (src/core/store.ts lines 394-400), used by
the gstate entry point for initial state: clone, freeze, size accounting,
store and version bump, with no hooks, no persistence and no
notifications. -/
def setSilently (s : StoreState) (key : String) (v : Value) : StoreState :=
  let frozen := frozenOf v
  let newSize := calcSize frozen
  let oldSize := (assoc s.sizes key).getD 0
  { s with
    totalSize := s.totalSize - (oldSize : Int) + (newSize : Int),
    sizes := assocSet s.sizes key newSize,
    store := assocSet s.store key frozen,
    versions := assocSet s.versions key (versionOf s key + 1) }

/-- Body of a transaction: the writes performed by the callback, run in
order; an exception from a write (a throwing recomputation) aborts the
remaining writes and is re-raised after the finally block, as in the
source. -/
def runOps (fuel : Nat) (s : StoreState) : List (String × Value) → StoreState × Option String
  | [] => (s, none)
  | (k, v) :: rest =>
    (match set fuel s k v false with
     | (s1, .threw e) => (s1, some e)
     | (s1, .ok _) => runOps fuel s1 rest)

/-- Transaction (src/core/store.ts lines 575-578): the batching flag is
raised, the START transaction hooks run, the callback executes its writes,
and in the finally block the flag is lowered, the END hooks run, and a
single pending global notification pass is flushed when some write
committed during the transaction. -/
def transaction (fuel : Nat) (s : StoreState) (ops : List (String × Value)) :
    StoreState × Option String :=
  let s1 := runHook { s with isTransaction := true } .onTransaction { key := some "START" }
  let (s2, err) := runOps fuel s1 ops
  let s3 := runHook { s2 with isTransaction := false } .onTransaction { key := some "END" }
  let s4 := if s3.pendingEmit then (emit fuel { s3 with pendingEmit := false } none).1 else s3
  (s4, err)

/-- Configuration subset relevant to the claims (src/core/types.ts
StoreConfig). -/
structure StoreConfig where
  nsName : Option String := none
  validateInputC : Option Bool := none
  userId : Option String := none
  maxObjectSizeC : Option Nat := none
  maxTotalSizeC : Option Nat := none
  accessRulesC : List (Pattern × List Permission) := []

/-- Store creation (src/core/store.ts lines 138-186): every instance gets
fresh, empty maps - store, versions, sizes, listeners, watchers, computed
entries and their reverse edges, plugins, disk queue, access rules and
consents are all created anew per call, so instances share nothing; the
configured access rules are folded in through addAccessRule, and the
defaults of the configuration are applied (validateInput true, object size
limit five megabytes, total size limit fifty megabytes, namespace
gstate). -/
def createStore (cfg : StoreConfig) : StoreState :=
  { store := [], versions := [], sizes := [], totalSize := 0, diskQueue := [],
    listeners := [], keyListeners := [], watchers := [], computed := [],
    computedDeps := [], plugins := [],
    accessRules := cfg.accessRulesC.foldl (fun acc r => addAccessRule acc r.1 r.2) [],
    userId := cfg.userId,
    validateInput := cfg.validateInputC.getD true,
    maxObjectSize := cfg.maxObjectSizeC.getD (5 * 1024 * 1024),
    maxTotalSize := cfg.maxTotalSizeC.getD (50 * 1024 * 1024),
    nsName := cfg.nsName.getD "gstate",
    isTransaction := false, pendingEmit := false, trace := [] }

/-! Offline sync engine (src/core/sync.ts).  The network is an oracle: one
optional response for the versions fetch, and one reply per key and
attempt index for pushes.  Clock reads (Date.now) are a now parameter.
The online listeners, auto-sync timer, debounce timer and state change
callbacks are external observers and do not influence the reconciliation
logic modelled here. -/

/-- A queued local change (src/core/sync.ts lines 73-78). -/
structure PendingChange where
  value : Value
  timestamp : Nat
  version : Nat

/-- Last known remote state of a key (src/core/sync.ts lines 80-84). -/
structure RemoteVersion where
  version : Nat
  timestamp : Nat
  value : Value

/-- Conflict description passed to the resolution callback
(src/core/sync.ts lines 48-55). -/
structure ConflictInfo where
  key : String
  localValue : Value
  remoteValue : Value
  localVersion : Nat
  remoteVersion : Nat
  timestamp : Nat

/-- Conflict resolution returned by the onConflict callback
(src/core/sync.ts lines 57-61). -/
inductive ConflictResolution where
  | acceptLocal : ConflictResolution
  | acceptRemote : ConflictResolution
  | mergeWith : Value → ConflictResolution
  | discardChange : ConflictResolution

/-- Sync configuration subset relevant to the claims: the retry bound
(default three) and the conflict callback (default accept-local),
src/core/sync.ts lines 99-110. -/
structure SyncConfigM where
  maxRetries : Nat := 3
  onConflict : ConflictInfo → ConflictResolution := fun _ => .acceptLocal

/-- Sync engine state (src/core/sync.ts lines 86-96). -/
structure SyncEngine where
  store : StoreState
  pendingQueue : List (String × PendingChange)
  remoteVersions : List (String × RemoteVersion)
  isSyncing : Bool
  config : SyncConfigM

/-- Reply of the remote to one push attempt: an ok response carrying an
optional version and timestamp, a response that is not ok, or a thrown
network error. -/
inductive PushReply where
  | okWith : Option Nat → Option Nat → PushReply
  | notOk : PushReply
  | netThrow : String → PushReply

/-- Network oracle for one sync cycle. -/
structure SyncNet where
  fetchVersions : Option (List (String × RemoteVersion))
  push : String → Nat → PushReply

/-- Queueing a local change for sync (src/core/sync.ts lines 167-182):
the pending entry snapshots a deep clone of the value with the current
store version of the key (or one when the key has no version). -/
def queueChange (e : SyncEngine) (key : String) (v : Value) (now : Nat) : SyncEngine :=
  let ver0 := versionOf e.store key
  let entry : PendingChange :=
    { value := deepCloneValue v, timestamp := now,
      version := if ver0 = 0 then 1 else ver0 }
  { e with pendingQueue := assocSet e.pendingQueue key entry }

/-- Push retry loop of _pushChange (src/core/sync.ts lines 318-355),
counted by remaining attempts (initially maxRetries).  An ok response
returns at once, recording the remote version when the response carries
one.  A response that is not ok increments the retry counter and loops;
exhausting the loop this way returns without an error.  A thrown network
error increments the retry counter, loops while attempts remain, and on
the last attempt propagates the error. -/
def pushLoop (net : SyncNet) (now : Nat) (key : String) (value : Value) :
    Nat → Nat → List (String × RemoteVersion) →
    List (String × RemoteVersion) × Option String
  | 0, _, rv => (rv, none)
  | r + 1, attempt, rv =>
    match net.push key attempt with
    | .okWith vOpt tOpt =>
      (match vOpt with
       | some ver =>
         (assocSet rv key { version := ver, timestamp := tOpt.getD now, value := value }, none)
       | none => (rv, none))
    | .notOk => pushLoop net now key value r (attempt + 1) rv
    | .netThrow m =>
      if r = 0 then (rv, some m) else pushLoop net now key value r (attempt + 1) rv

/-- Push of one pending change (src/core/sync.ts lines 318-355). -/
def pushChange (net : SyncNet) (now : Nat) (key : String) (ch : PendingChange)
    (maxRetries : Nat) (rv : List (String × RemoteVersion)) :
    List (String × RemoteVersion) × Option String :=
  pushLoop net now key ch.value maxRetries 0 rv

/-- Conflict resolution (src/core/sync.ts lines 357-392): accept-local
force-pushes with the version bumped past the remote; accept-remote
writes the remote value into the local store through set; merge writes
the merged value locally and pushes it with the version above both;
discard does nothing.  An exception from the store write or the push
propagates to the per-key handler in sync. -/
def resolveConflict (fuel : Nat) (net : SyncNet) (now : Nat) (st : StoreState)
    (rv : List (String × RemoteVersion)) (maxRetries : Nat) (key : String)
    (ch : PendingChange) (remote : RemoteVersion) (res : ConflictResolution) :
    StoreState × List (String × RemoteVersion) × Option String :=
  match res with
  | .acceptLocal =>
    let (rv2, err) := pushChange net now key
      { ch with version := remote.version + 1, timestamp := now } maxRetries rv
    (st, rv2, err)
  | .acceptRemote =>
    (match set fuel st key remote.value false with
     | (st2, .threw m) => (st2, rv, some m)
     | (st2, .ok _) => (st2, rv, none))
  | .mergeWith v =>
    (match set fuel st key v false with
     | (st2, .threw m) => (st2, rv, some m)
     | (st2, .ok _) =>
       let (rv2, err) := pushChange net now key
         { value := v, timestamp := now, version := max ch.version remote.version + 1 }
         maxRetries rv
       (st2, rv2, err))
  | .discardChange => (st, rv, none)

/-- Error string recorded for a key whose processing threw
(src/core/sync.ts line 261). -/
def syncErrMsg (k m : String) : String := "Failed to sync \"" ++ k ++ "\": " ++ m

/-- Accumulated state of the per-change loop in sync. -/
structure SyncLoop where
  st : StoreState
  rv : List (String × RemoteVersion)
  pending : List (String × PendingChange)
  synced : List String
  conflicts : List ConflictInfo
  errors : List String

/-- One iteration of the per-change loop of sync (src/core/sync.ts lines
228-263): no known remote version pushes and marks clean; a remote
version at or above the local one is a conflict, recorded, resolved
through the configured callback, and marked clean unless the resolution
threw; a lower remote version pushes and marks clean.  A thrown error is
caught here: it is recorded in the errors array and the key stays in the
pending queue. -/
def syncStep (fuel : Nat) (net : SyncNet) (now maxRetries : Nat)
    (onConflict : ConflictInfo → ConflictResolution) (acc : SyncLoop)
    (k : String) (ch : PendingChange) : SyncLoop :=
  match assoc acc.rv k with
  | none =>
    (match pushChange net now k ch maxRetries acc.rv with
     | (rv2, some m) => { acc with rv := rv2, errors := acc.errors ++ [syncErrMsg k m] }
     | (rv2, none) =>
       { acc with
         rv := rv2, synced := acc.synced ++ [k], pending := assocErase acc.pending k })
  | some remote =>
    if ch.version ≤ remote.version then
      let ci : ConflictInfo :=
        { key := k, localValue := ch.value, remoteValue := remote.value,
          localVersion := ch.version, remoteVersion := remote.version,
          timestamp := ch.timestamp }
      (match resolveConflict fuel net now acc.st acc.rv maxRetries k ch remote (onConflict ci) with
       | (st2, rv2, some m) =>
         { acc with
           st := st2, rv := rv2, conflicts := acc.conflicts ++ [ci],
           errors := acc.errors ++ [syncErrMsg k m] }
       | (st2, rv2, none) =>
         { acc with
           st := st2, rv := rv2, conflicts := acc.conflicts ++ [ci],
           synced := acc.synced ++ [k], pending := assocErase acc.pending k })
    else
      (match pushChange net now k ch maxRetries acc.rv with
       | (rv2, some m) => { acc with rv := rv2, errors := acc.errors ++ [syncErrMsg k m] }
       | (rv2, none) =>
         { acc with
           rv := rv2, synced := acc.synced ++ [k], pending := assocErase acc.pending k })

/-- The per-change loop of sync over the snapshot of pending changes. -/
def syncRun (fuel : Nat) (net : SyncNet) (now maxRetries : Nat)
    (onConflict : ConflictInfo → ConflictResolution) :
    List (String × PendingChange) → SyncLoop → SyncLoop
  | [], acc => acc
  | (k, ch) :: rest, acc =>
    syncRun fuel net now maxRetries onConflict rest
      (syncStep fuel net now maxRetries onConflict acc k ch)

/-- Merge of the versions fetch response into the known remote versions
(src/core/sync.ts lines 294-316); a thrown or non-ok fetch leaves them
unchanged. -/
def fetchMerge (rv : List (String × RemoteVersion))
    (resp : Option (List (String × RemoteVersion))) : List (String × RemoteVersion) :=
  match resp with
  | none => rv
  | some vs => vs.foldl (fun acc kv => assocSet acc kv.1 kv.2) rv

/-- Result of a sync cycle (src/core/sync.ts lines 39-46; the timestamp
and duration fields are clock reads and are omitted). -/
structure SyncResultM where
  success : Bool
  syncedKeys : List String
  conflicts : List ConflictInfo
  errors : List String

/-- A sync cycle (src/core/sync.ts lines 187-292): a cycle already in
progress is rejected immediately; an empty queue succeeds trivially;
otherwise the remote versions of the pending keys are fetched and each
pending change of the snapshot is processed in order, errors being
isolated per key.  The isSyncing flag is raised during the cycle and
lowered in the finally block, so it is false again in the returned
engine. -/
def sync (fuel : Nat) (net : SyncNet) (now : Nat) (e : SyncEngine) :
    SyncEngine × SyncResultM :=
  if e.isSyncing then
    (e, { success := false, syncedKeys := [], conflicts := [],
          errors := ["Sync already in progress"] })
  else
    if e.pendingQueue.isEmpty then
      (e, { success := true, syncedKeys := [], conflicts := [], errors := [] })
    else
      let rv1 := fetchMerge e.remoteVersions net.fetchVersions
      let acc0 : SyncLoop :=
        { st := e.store, rv := rv1, pending := e.pendingQueue,
          synced := [], conflicts := [], errors := [] }
      let accF := syncRun fuel net now e.config.maxRetries e.config.onConflict
        e.pendingQueue acc0
      let e2 : SyncEngine :=
        { e with store := accF.st, remoteVersions := accF.rv,
                 pendingQueue := accF.pending, isSyncing := false }
      let result : SyncResultM :=
        { success := accF.errors.isEmpty, syncedKeys := accF.synced,
          conflicts := accF.conflicts, errors := accF.errors }
      (e2, result)

/-! Helpers used by the claim statements. -/

/-- Notification events the watchers of a key produce when the key
changes, in registration order. -/
def watcherNotifBlock (s : StoreState) (k : String) : List Event :=
  (watchersFor s k).map (fun w => Event.watcherFired k w.1)

/-- Notification events the per-key listeners of a key produce when the
key changes, in registration order. -/
def keyListenerNotifBlock (s : StoreState) (k : String) : List Event :=
  (keyListenersFor s k).map (fun w => Event.keyListenerFired k w.1)

/-- One per-key notification cycle: watchers first, then per-key
listeners, as in _emit. -/
def perKeyNotifBlock (s : StoreState) (k : String) : List Event :=
  watcherNotifBlock s k ++ keyListenerNotifBlock s k

/-- One global notification pass over the global listeners, in
registration order. -/
def globalNotifBlock (s : StoreState) : List Event :=
  s.listeners.map (fun l => Event.globalListenerFired l.1)

/-- The watcher and per-key listener notification part of _emit for a
changed key, as one function: watchers first, then per-key listeners
(registered on the state the watchers left behind). -/
def perKeyNotify (s : StoreState) (ck : String) : StoreState :=
  let s2 := notifyWatchers (watchersFor s ck) ck s
  notifyKeyListeners (keyListenersFor s2 ck) ck s2

/-- Hook context with no key, value or version (the install context
carries only the store reference). -/
def emptyHookInput : HookInput := { key := none, value := none, version := none }

/-- Plugin installation (src/core/store.ts lines 594-603): the plugin is
stored under its name (replacing a plugin of the same name), and its own
onInstall hook runs inside a try/catch whose report uses the
plugin:install operation with the plugin name as key. -/
def addPlugin (s : StoreState) (p : Plugin) : StoreState :=
  let newPlugins :=
    if s.plugins.any (fun q => q.name = p.name) then
      s.plugins.map (fun q => if q.name = p.name then p else q)
    else s.plugins ++ [p]
  let s1 := { s with plugins := newPlugins }
  match p.hooks .onInstall with
  | none => s1
  | some h =>
    (match h emptyHookInput with
     | .ok _ => s1
     | .error _ =>
       { s1 with trace := s1.trace ++ [.errorReported "plugin:install" (some p.name)] })

/-- Instance method addAccessRule (src/core/store.ts line 631): adds the
rule to the access rule map owned by the instance. -/
def storeAddAccessRule (s : StoreState) (p : Pattern) (perms : List Permission) : StoreState :=
  { s with accessRules := addAccessRule s.accessRules p perms }

/-- Instance method hasPermission (src/core/store.ts lines 635-651),
applied to the rules owned by the instance with a caller supplied user
id. -/
def storeHasPermission (s : StoreState) (key : String) (action : Permission)
    (uid : Option String) : Bool :=
  hasPermission s.accessRules key action uid

/-- The permissions of the first rule whose pattern matches the key, in
insertion order.  This definition follows the wording of the claim about
hasPermission (the first matching rule decides) and is compared against
the translated function. -/
def firstMatchingPerms (rules : List (Pattern × List Permission)) (key : String)
    (uid : Option String) : Option (List Permission) :=
  (rules.find? (fun r => patMatches r.1 key uid)).map (fun r => r.2)

/-- A world of two independently created store instances, for the
isolation claim. -/
structure TwoStores where
  fst : StoreState
  snd : StoreState

/-- Adding an access rule on the first store of the world. -/
def addRuleOnFirst (w : TwoStores) (p : Pattern) (perms : List Permission) : TwoStores :=
  { w with fst := storeAddAccessRule w.fst p perms }

/-- Adding an access rule on the second store of the world. -/
def addRuleOnSecond (w : TwoStores) (p : Pattern) (perms : List Permission) : TwoStores :=
  { w with snd := storeAddAccessRule w.snd p perms }

/-! Concrete scenarios used by counterexamples and witnesses. -/

/-- A plugin whose onBeforeSet hook always throws, as a vetoing validation
plugin would (compare the validation example of the plugin guide). -/
def vetoPlugin : Plugin :=
  { name := "veto",
    hooks := fun n =>
      match n with
      | .onBeforeSet => some (fun _ => .error "veto")
      | _ => none }

/-- A fresh default store with the veto plugin installed. -/
def vetoStore : StoreState := addPlugin (createStore {}) vetoPlugin

/-- Run of set on the veto store. -/
def vetoRun : StoreState × SetOutcome := set 2 vetoStore "a" (.vnum 1) false

/-- Selector of one link of the computed chain of the stress test: read
the previous key, default to zero when falsy, add one. -/
def chainSel (k : String) : SExpr :=
  .addE (.orElse (.readKey k) (.lit (.vnum 0))) (.lit (.vnum 1))

/-- Fresh store with the base key initialized to zero, as the stress test
does through the gstate entry point. -/
def chainStore0 : StoreState := setSilently (createStore {}) "base" (.vnum 0)

/-- The five computed links registered in order. -/
def chainRegistered : StoreState :=
  let s1 := (compute 25 chainStore0 "l1" (chainSel "base")).1
  let s2 := (compute 25 s1 "l2" (chainSel "l1")).1
  let s3 := (compute 25 s2 "l3" (chainSel "l2")).1
  let s4 := (compute 25 s3 "l4" (chainSel "l3")).1
  (compute 25 s4 "l5" (chainSel "l4")).1

/-- The chain store after the write of ten to the base key. -/
def chainAfterSet : StoreState := (set 25 chainRegistered "base" (.vnum 10) false).1

/-- The value the chain scenario returns for the top computed key after
the write (a later compute call returns the cached value; the selector
argument of that call is not evaluated). -/
def chainResult : Value := (compute 25 chainAfterSet "l5" (.lit (.vnum 0))).2

/-- A selector that throws exactly when the key x holds one, and
otherwise re-reads x. -/
def throwSel : SExpr := .condEq (.readKey "x") (.vnum 1) (.raiseErr "boom") (.readKey "x")

/-- Fresh default store with a computed key c registered over throwSel
(the initial eager evaluation succeeds because x is absent). -/
def throwSelStore : StoreState := (compute 10 (createStore {}) "c" throwSel).1

/-- Run of the write that makes the recomputation of c throw. -/
def throwSelRun : StoreState × SetOutcome := set 10 throwSelStore "x" (.vnum 1) false

/-- Sync engine for the accept-remote witness: one pending change for x
at local version one over a fresh default store. -/
def acceptRemoteEngine : SyncEngine :=
  { store := createStore {},
    pendingQueue := [("x", { value := .vstr "L", timestamp := 0, version := 1 })],
    remoteVersions := [], isSyncing := false,
    config := { maxRetries := 3, onConflict := fun _ => .acceptRemote } }

/-- Remote record for the accept-remote witness: version two with value
R. -/
def acceptRemoteRecord : RemoteVersion := { version := 2, timestamp := 0, value := .vstr "R" }

/-- Network for the accept-remote witness: the fetch reports the remote
record for x; pushes are never needed. -/
def acceptRemoteNet : SyncNet :=
  { fetchVersions := some [("x", acceptRemoteRecord)],
    push := fun _ _ => .okWith none none }

/-- Sync engine for the retry exhaustion counterexample: one pending
change whose pushes all come back as non-ok responses. -/
def notOkEngine : SyncEngine :=
  { store := createStore {},
    pendingQueue := [("k", { value := .vnum 1, timestamp := 0, version := 1 })],
    remoteVersions := [], isSyncing := false, config := {} }

/-- Network whose every push attempt returns a non-ok response and whose
fetch knows no remote records. -/
def notOkNet : SyncNet := { fetchVersions := some [], push := fun _ _ => .notOk }

/-- Result of the sync cycle under exhausted non-ok pushes. -/
def notOkRun : SyncEngine × SyncResultM := sync 5 notOkNet 0 notOkEngine

/-- Store write of a value that the sanitizer rewrites. -/
def sanitizeRun : StoreState × SetOutcome :=
  set 2 (createStore {}) "a" (.vstr "javascript:alert(1)") false

/-- Store for the transaction witness: one global listener, one watcher
on a, one per-key listener on b. -/
def transWitnessStore : StoreState :=
  { createStore {} with
    listeners := [(1, false)],
    watchers := [("a", 5, false)],
    keyListeners := [("b", 7, false)] }

/-- Sync engine for the retry exhaustion theorem witness: two pending
changes, p and q. -/
def exhaustEngine : SyncEngine :=
  { store := createStore {},
    pendingQueue := [("p", { value := .vnum 1, timestamp := 0, version := 1 }),
                     ("q", { value := .vnum 2, timestamp := 0, version := 1 })],
    remoteVersions := [], isSyncing := false, config := { maxRetries := 3 } }

/-- Network for the retry exhaustion witness: every push of p throws a
network error, pushes of q succeed, the fetch knows no remote records. -/
def exhaustNet : SyncNet :=
  { fetchVersions := some [],
    push := fun k _ => if k = "p" then .netThrow "offline" else .okWith none none }


/-! Helper lemmas.  An equation t = { s with trace := t.trace } says that a
state t agrees with s on every field except possibly the trace. -/

theorem notifEvents_append (a b : List Event) :
    notifEvents (a ++ b) = notifEvents a ++ notifEvents b :=
  List.filter_append _ _

theorem notifEvents_hookEvents (ps : List Plugin) (n : HookName) (i : HookInput) :
    notifEvents (hookEvents ps n i) = [] := by
  induction ps with
  | nil => rfl
  | cons p rest ih =>
    simp only [hookEvents, notifEvents_append, ih, List.append_nil]
    cases hpn : p.hooks n with
    | none => rfl
    | some h =>
      cases hr : h i with
      | ok u => simp only [hr]; rfl
      | error e => simp only [hr]; rfl

theorem runHook_eq (s : StoreState) (n : HookName) (i : HookInput) :
    runHook s n i = { s with trace := s.trace ++ hookEvents s.plugins n i } := rfl

theorem runHook_notif (s : StoreState) (n : HookName) (i : HookInput) :
    notifEvents (runHook s n i).trace = notifEvents s.trace := by
  simp [runHook_eq, notifEvents_append, notifEvents_hookEvents]

theorem get_snd (s : StoreState) (k : String) :
    (get s k).2 = { s with trace := (get s k).2.trace } := by
  unfold get
  split
  · rfl
  · rfl

theorem get_notif (s : StoreState) (k : String) :
    notifEvents (get s k).2.trace = notifEvents s.trace := by
  unfold get
  split
  · rfl
  · exact runHook_notif s .onGet _

theorem trace_ext_trans {s t u : StoreState} (h1 : t = { s with trace := t.trace })
    (h2 : u = { t with trace := u.trace }) : u = { s with trace := u.trace } := by
  cases s; cases t; cases u
  simp_all

theorem notifyWatchers_eq (ws : List (Nat × Bool)) (k : String) :
    ∀ s : StoreState, notifyWatchers ws k s = { s with trace := (notifyWatchers ws k s).trace } := by
  induction ws with
  | nil => intro s; rfl
  | cons w rest ih =>
    intro s
    obtain ⟨id, fl⟩ := w
    simp only [notifyWatchers]
    rcases hG : get s k with ⟨v, s1⟩
    have hg : s1 = { s with trace := s1.trace } := by
      have := get_snd s k
      rw [hG] at this
      exact this
    simp only [hG]
    exact trace_ext_trans (trace_ext_trans hg rfl) (ih _)

theorem notifyWatchers_notif (ws : List (Nat × Bool)) (k : String) :
    ∀ s : StoreState, notifEvents (notifyWatchers ws k s).trace =
      notifEvents s.trace ++ ws.map (fun w => Event.watcherFired k w.1) := by
  induction ws with
  | nil => intro s; simp [notifyWatchers]
  | cons w rest ih =>
    intro s
    obtain ⟨id, fl⟩ := w
    simp only [notifyWatchers]
    rcases hG : get s k with ⟨v, s1⟩
    have h1 : notifEvents s1.trace = notifEvents s.trace := by
      have := get_notif s k
      rw [hG] at this
      exact this
    simp only [hG]
    rw [ih]
    have h1f : List.filter notifEvent s1.trace = List.filter notifEvent s.trace := h1
    cases fl <;>
      simp [notifEvents, List.filter_append, List.filter_cons, notifEvent, h1f,
        List.append_assoc]

theorem notifyKeyListeners_eq (ws : List (Nat × Bool)) (k : String) :
    ∀ s : StoreState,
      notifyKeyListeners ws k s = { s with trace := (notifyKeyListeners ws k s).trace } := by
  induction ws with
  | nil => intro s; rfl
  | cons w rest ih =>
    intro s
    obtain ⟨id, fl⟩ := w
    simp only [notifyKeyListeners]
    exact trace_ext_trans rfl (ih _)

theorem notifyKeyListeners_notif (ws : List (Nat × Bool)) (k : String) :
    ∀ s : StoreState, notifEvents (notifyKeyListeners ws k s).trace =
      notifEvents s.trace ++ ws.map (fun w => Event.keyListenerFired k w.1) := by
  induction ws with
  | nil => intro s; simp [notifyKeyListeners]
  | cons w rest ih =>
    intro s
    obtain ⟨id, fl⟩ := w
    simp only [notifyKeyListeners]
    rw [ih]
    cases fl <;>
      simp [notifEvents, List.filter_append, List.filter_cons, notifEvent,
        List.append_assoc]

theorem notifyGlobals_eq (ws : List (Nat × Bool)) :
    ∀ s : StoreState, notifyGlobals ws s = { s with trace := (notifyGlobals ws s).trace } := by
  induction ws with
  | nil => intro s; rfl
  | cons w rest ih =>
    intro s
    obtain ⟨id, fl⟩ := w
    simp only [notifyGlobals]
    exact trace_ext_trans rfl (ih _)

theorem notifyGlobals_notif (ws : List (Nat × Bool)) :
    ∀ s : StoreState, notifEvents (notifyGlobals ws s).trace =
      notifEvents s.trace ++ ws.map (fun w => Event.globalListenerFired w.1) := by
  induction ws with
  | nil => intro s; simp [notifyGlobals]
  | cons w rest ih =>
    intro s
    obtain ⟨id, fl⟩ := w
    simp only [notifyGlobals]
    rw [ih]
    cases fl <;>
      simp [notifEvents, List.filter_append, List.filter_cons, notifEvent,
        List.append_assoc]

theorem perKeyNotify_eq (s : StoreState) (ck : String) :
    perKeyNotify s ck = { s with trace := (perKeyNotify s ck).trace } :=
  trace_ext_trans (notifyWatchers_eq _ _ _) (notifyKeyListeners_eq _ _ _)

theorem perKeyNotify_notif (s : StoreState) (ck : String) :
    notifEvents (perKeyNotify s ck).trace = notifEvents s.trace ++ perKeyNotifBlock s ck := by
  unfold perKeyNotify perKeyNotifBlock watcherNotifBlock keyListenerNotifBlock
  rw [notifyKeyListeners_notif, notifyWatchers_notif]
  have hk : keyListenersFor (notifyWatchers (watchersFor s ck) ck s) ck =
      keyListenersFor s ck := by
    rw [notifyWatchers_eq (watchersFor s ck) ck s]
    rfl
  rw [hk, List.append_assoc]

theorem emit_noDeps (f : Nat) (s : StoreState) (ck : String)
    (h : assoc s.computedDeps ck = none) :
    emit (f + 2) s (some ck) =
      (if (perKeyNotify s ck).isTransaction then
        ({ perKeyNotify s ck with pendingEmit := true }, none)
       else (notifyGlobals (perKeyNotify s ck).listeners (perKeyNotify s ck), none)) := by
  have h0 : (assoc s.computedDeps ck).getD [] = [] := by rw [h]; rfl
  show emit ((f + 1) + 1) s (some ck) = _
  simp only [emit, h0, runDependents]
  rfl

theorem emit_noDeps_notrans (f : Nat) (s : StoreState) (ck : String)
    (h : assoc s.computedDeps ck = none) (hT : s.isTransaction = false) :
    emit (f + 2) s (some ck) =
      (notifyGlobals (perKeyNotify s ck).listeners (perKeyNotify s ck), none) := by
  rw [emit_noDeps f s ck h]
  have hc : (perKeyNotify s ck).isTransaction = false := by
    rw [perKeyNotify_eq s ck]
    exact hT
  simp [hc]

theorem emit_noDeps_notrans_spec (f : Nat) (s : StoreState) (ck : String)
    (h : assoc s.computedDeps ck = none) (hT : s.isTransaction = false) :
    (emit (f + 2) s (some ck)).2 = none ∧
    (emit (f + 2) s (some ck)).1 = { s with trace := (emit (f + 2) s (some ck)).1.trace } ∧
    notifEvents (emit (f + 2) s (some ck)).1.trace =
      notifEvents s.trace ++ perKeyNotifBlock s ck ++ globalNotifBlock s := by
  rw [emit_noDeps_notrans f s ck h hT]
  refine ⟨rfl, ?_, ?_⟩
  · exact trace_ext_trans (perKeyNotify_eq s ck) (notifyGlobals_eq _ _)
  · rw [notifyGlobals_notif, perKeyNotify_notif]
    have hl : (perKeyNotify s ck).listeners = s.listeners := by
      rw [perKeyNotify_eq s ck]
    rw [hl]
    rfl

theorem emit_noDeps_trans_spec (f : Nat) (s : StoreState) (ck : String)
    (h : assoc s.computedDeps ck = none) (hT : s.isTransaction = true) :
    (emit (f + 2) s (some ck)).2 = none ∧
    (emit (f + 2) s (some ck)).1 =
      { s with trace := (emit (f + 2) s (some ck)).1.trace, pendingEmit := true } ∧
    notifEvents (emit (f + 2) s (some ck)).1.trace =
      notifEvents s.trace ++ perKeyNotifBlock s ck := by
  have hc : (perKeyNotify s ck).isTransaction = true := by
    rw [perKeyNotify_eq s ck]
    exact hT
  have hstep : emit (f + 2) s (some ck) =
      ({ perKeyNotify s ck with pendingEmit := true }, none) := by
    rw [emit_noDeps f s ck h]
    simp [hc]
  rw [hstep]
  refine ⟨rfl, ?_, perKeyNotify_notif s ck⟩
  have hP := perKeyNotify_eq s ck
  generalize hQ : perKeyNotify s ck = Q at hP
  cases s; cases Q
  simp_all

theorem emit_none_notrans (f : Nat) (s : StoreState) (hT : s.isTransaction = false) :
    emit (f + 1) s none = (notifyGlobals s.listeners s, none) := by
  simp [emit, hT]

theorem assoc_assocSet_self {a : Type} (m : List (String × a)) (k : String) (x : a) :
    assoc (assocSet m k x) k = some x := by
  induction m with
  | nil => simp [assocSet, assoc]
  | cons e rest ih =>
    obtain ⟨k2, w⟩ := e
    by_cases hk : k2 = k
    · simp [assocSet, assoc, hk]
    · simp [assocSet, assoc, hk, ih]

theorem assoc_assocSet_ne {a : Type} (m : List (String × a)) (k k2 : String) (x : a)
    (h : k2 ≠ k) : assoc (assocSet m k x) k2 = assoc m k2 := by
  have h2 : ¬ (k = k2) := fun hh => h hh.symm
  induction m with
  | nil => simp [assocSet, assoc, h2]
  | cons e rest ih =>
    obtain ⟨k3, w⟩ := e
    by_cases hk : k3 = k
    · subst hk
      simp [assocSet, assoc, h2]
    · simp [assocSet, assoc, hk, ih]

theorem set_noop (fuel : Nat) (s : StoreState) (k : String) (v : Value) (p : Bool)
    (h : isEqual (storedAt s k) (processedOf s.validateInput v) = true) :
    (set fuel s k v p).2 = .ok false ∧
    (set fuel s k v p).1 = { s with trace := (set fuel s k v p).1.trace } ∧
    notifEvents (set fuel s k v p).1.trace = notifEvents s.trace := by
  simp only [processedOf, frozenOf, deepCloneValue] at h
  unfold set
  split
  · exact ⟨rfl, rfl, rfl⟩
  · split
    · exact ⟨rfl, rfl, rfl⟩
    · simp only [frozenOf, deepCloneValue, h, if_true, ite_true]
      refine ⟨by trivial, by trivial, ?_⟩
      simp [runHook_eq, notifEvents_append, notifEvents_hookEvents]

theorem notifEvents_warn {c : Prop} [Decidable c] (o : String) (kk : Option String) :
    notifEvents (if c then [Event.errorReported o kk] else []) = [] := by
  split <;> rfl

theorem commitPre_notif (s : StoreState) (k : String) (v : Value) (p : Bool) :
    notifEvents (commitPre s k v p).trace = notifEvents s.trace := by
  simp only [commitPre, runHook_eq]
  simp [notifEvents_append, notifEvents_hookEvents, notifEvents_warn]

theorem set_commit_shape (f : Nat) (s : StoreState) (k : String) (v : Value) (p : Bool)
    (hv : validateKey k = true)
    (hperm : s.accessRules = [])
    (hchg : isEqual (storedAt s k) (processedOf s.validateInput v) = false) :
    set (f + 2) s k v p =
      (match emit (f + 2) (commitPre s k v p) (some k) with
       | (s4, some e) => (s4, .threw e)
       | (s4, none) => (s4, .ok true)) := by
  have h1 : (s.validateInput && ! validateKey k) = false := by rw [hv]; simp
  have h2 : hasPermission s.accessRules k .write s.userId = true := by rw [hperm]; rfl
  simp only [processedOf, frozenOf, deepCloneValue] at hchg
  unfold set
  simp only [h1, h2, Bool.not_true, if_false, ite_false, Bool.false_eq_true,
    frozenOf, deepCloneValue, hchg]
  rfl

theorem set_commit (f : Nat) (s : StoreState) (k : String) (v : Value) (p : Bool)
    (hv : validateKey k = true)
    (hperm : s.accessRules = [])
    (hchg : isEqual (storedAt s k) (processedOf s.validateInput v) = false)
    (hdeps : assoc s.computedDeps k = none) :
    (set (f + 2) s k v p).2 = .ok true ∧
    (set (f + 2) s k v p).1.store = assocSet s.store k (processedOf s.validateInput v) ∧
    (set (f + 2) s k v p).1.versions = assocSet s.versions k (versionOf s k + 1) ∧
    (set (f + 2) s k v p).1.diskQueue =
      (if p then assocSet s.diskQueue k (processedOf s.validateInput v) else s.diskQueue) ∧
    (set (f + 2) s k v p).1.computed = s.computed ∧
    (set (f + 2) s k v p).1.computedDeps = s.computedDeps ∧
    (set (f + 2) s k v p).1.watchers = s.watchers ∧
    (set (f + 2) s k v p).1.keyListeners = s.keyListeners ∧
    (set (f + 2) s k v p).1.listeners = s.listeners ∧
    (set (f + 2) s k v p).1.plugins = s.plugins ∧
    (set (f + 2) s k v p).1.accessRules = s.accessRules ∧
    (set (f + 2) s k v p).1.userId = s.userId ∧
    (set (f + 2) s k v p).1.validateInput = s.validateInput ∧
    (set (f + 2) s k v p).1.isTransaction = s.isTransaction ∧
    (set (f + 2) s k v p).1.pendingEmit = (if s.isTransaction then true else s.pendingEmit) ∧
    notifEvents (set (f + 2) s k v p).1.trace =
      notifEvents s.trace ++ perKeyNotifBlock s k ++
        (if s.isTransaction then [] else globalNotifBlock s) := by
  have hshape := set_commit_shape f s k v p hv hperm hchg
  have hcd : assoc (commitPre s k v p).computedDeps k = none := hdeps
  cases hT : s.isTransaction with
  | false =>
    have hT2 : (commitPre s k v p).isTransaction = false := hT
    obtain ⟨e2, e1, e3⟩ := emit_noDeps_notrans_spec f (commitPre s k v p) k hcd hT2
    rcases hE : emit (f + 2) (commitPre s k v p) (some k) with ⟨s4, err⟩
    rw [hE] at e2 e1 e3
    simp only at e2 e1 e3
    subst e2
    rw [hshape, hE]
    simp only
    rw [e1]
    refine ⟨trivial, rfl, rfl, rfl, rfl, rfl, rfl, rfl, rfl, rfl, rfl, rfl, rfl, hT,
      by simp; rfl, ?_⟩
    show notifEvents s4.trace = _
    rw [e3, commitPre_notif]
    show notifEvents s.trace ++ perKeyNotifBlock s k ++ globalNotifBlock s = _
    simp
  | true =>
    have hT2 : (commitPre s k v p).isTransaction = true := hT
    obtain ⟨e2, e1, e3⟩ := emit_noDeps_trans_spec f (commitPre s k v p) k hcd hT2
    rcases hE : emit (f + 2) (commitPre s k v p) (some k) with ⟨s4, err⟩
    rw [hE] at e2 e1 e3
    simp only at e2 e1 e3
    subst e2
    rw [hshape, hE]
    simp only
    rw [e1]
    refine ⟨trivial, rfl, rfl, rfl, rfl, rfl, rfl, rfl, rfl, rfl, rfl, rfl, rfl, hT,
      by simp, ?_⟩
    show notifEvents s4.trace = _
    rw [e3, commitPre_notif]
    show notifEvents s.trace ++ perKeyNotifBlock s k = _
    simp

/-- C1: No-op write idempotence.  First part: a call to set whose frozen
result is deep-equal to the value currently stored at the key returns
false and commits nothing - the version map, the store mapping and the
persistence queue are unchanged and no watcher, per-key or global
notification is emitted.  Second part: set of a self-equal value that
commits, immediately followed by set of the same value, returns true then
false, increments the version of the key exactly once, and produces
exactly one notification cycle (one watcher and per-key listener block
and one global pass). -/
theorem C1_noop_write_idempotence :
    (∀ (fuel : Nat) (s : StoreState) (k : String) (v : Value) (p : Bool),
      isEqual (storedAt s k) (processedOf s.validateInput v) = true →
      (set fuel s k v p).2 = .ok false ∧
      (set fuel s k v p).1.versions = s.versions ∧
      (set fuel s k v p).1.store = s.store ∧
      (set fuel s k v p).1.diskQueue = s.diskQueue ∧
      notifEvents (set fuel s k v p).1.trace = notifEvents s.trace) ∧
    (∀ (f : Nat) (s : StoreState) (k : String) (v : Value),
      validateKey k = true →
      s.accessRules = [] →
      s.isTransaction = false →
      assoc s.computedDeps k = none →
      isEqual (storedAt s k) (processedOf s.validateInput v) = false →
      isEqual (processedOf s.validateInput v) (processedOf s.validateInput v) = true →
      (set (f + 2) s k v false).2 = .ok true ∧
      (set (f + 2) (set (f + 2) s k v false).1 k v false).2 = .ok false ∧
      versionOf (set (f + 2) (set (f + 2) s k v false).1 k v false).1 k =
        versionOf s k + 1 ∧
      notifEvents (set (f + 2) (set (f + 2) s k v false).1 k v false).1.trace =
        notifEvents s.trace ++ perKeyNotifBlock s k ++ globalNotifBlock s) := by
  constructor
  · intro fuel s k v p h
    obtain ⟨r1, r2, r3⟩ := set_noop fuel s k v p h
    refine ⟨r1, ?_, ?_, ?_, r3⟩
    · rw [r2]
    · rw [r2]
    · rw [r2]
  · intro f s k v hv hperm hT hdeps hchg hself
    obtain ⟨c1, cstore, cvers, _, _, _, _, _, _, _, _, _, cvalid, _, _, cnotif⟩ :=
      set_commit f s k v false hv hperm hchg hdeps
    have hstored : storedAt (set (f + 2) s k v false).1 k = processedOf s.validateInput v := by
      unfold storedAt
      rw [cstore, assoc_assocSet_self]
      rfl
    have hnoop : isEqual (storedAt (set (f + 2) s k v false).1 k)
        (processedOf (set (f + 2) s k v false).1.validateInput v) = true := by
      rw [hstored, cvalid]
      exact hself
    obtain ⟨n1, n2, n3⟩ := set_noop (f + 2) (set (f + 2) s k v false).1 k v false hnoop
    refine ⟨c1, n1, ?_, ?_⟩
    · unfold versionOf
      rw [n2]
      show (assoc (set (f + 2) s k v false).1.versions k).getD 0 = _
      rw [cvers, assoc_assocSet_self]
      rfl
    · rw [n3, cnotif, hT]
      simp

/-- Witness for C1: on a fresh default store, writing undefined over the
absent key a is a no-op returning false, while writing five commits once
and a repeated equal write returns false with the version at one. -/
theorem C1_noop_write_idempotence_witness :
    (isEqual (storedAt (createStore {}) "a")
        (processedOf (createStore {}).validateInput Value.undef) = true ∧
      (set 1 (createStore {}) "a" Value.undef false).2 = .ok false) ∧
    (validateKey "a" = true ∧
      isEqual (storedAt (createStore {}) "a")
        (processedOf (createStore {}).validateInput (Value.vnum 5)) = false ∧
      (set 2 (createStore {}) "a" (Value.vnum 5) false).2 = .ok true ∧
      (set 2 (set 2 (createStore {}) "a" (Value.vnum 5) false).1 "a"
        (Value.vnum 5) false).2 = .ok false ∧
      versionOf (set 2 (set 2 (createStore {}) "a" (Value.vnum 5) false).1 "a"
        (Value.vnum 5) false).1 "a" = 1) :=
  ⟨⟨rfl,
    (C1_noop_write_idempotence.1 1 (createStore {}) "a" Value.undef false rfl).1⟩,
   ⟨rfl, rfl,
    (C1_noop_write_idempotence.2 0 (createStore {}) "a" (Value.vnum 5)
      rfl rfl rfl rfl rfl rfl).1,
    (C1_noop_write_idempotence.2 0 (createStore {}) "a" (Value.vnum 5)
      rfl rfl rfl rfl rfl rfl).2.1,
    (C1_noop_write_idempotence.2 0 (createStore {}) "a" (Value.vnum 5)
      rfl rfl rfl rfl rfl rfl).2.2.1⟩⟩

/-- C2: Fail-closed access control.  With an empty rule set every check
for every key, action and user succeeds; with a non-empty rule set, the
first rule in insertion order whose pattern matches the key decides the
result, granting exactly when its permission list contains the action or
contains admin; and when no rule matches the key the check fails. -/
theorem C2_fail_closed_access_control :
    (∀ (key : String) (action : Permission) (uid : Option String),
      hasPermission [] key action uid = true) ∧
    (∀ (rules : List (Pattern × List Permission)) (key : String) (action : Permission)
      (uid : Option String) (perms : List Permission),
      firstMatchingPerms rules key uid = some perms →
      hasPermission rules key action uid =
        (perms.contains action || perms.contains .admin)) ∧
    (∀ (rules : List (Pattern × List Permission)) (key : String) (action : Permission)
      (uid : Option String),
      rules ≠ [] →
      firstMatchingPerms rules key uid = none →
      hasPermission rules key action uid = false) := by
  refine ⟨fun key action uid => rfl, ?_, ?_⟩
  · intro rules key action uid perms hfind
    induction rules with
    | nil => simp [firstMatchingPerms] at hfind
    | cons r rest ih =>
      obtain ⟨pat, ps⟩ := r
      by_cases hm : patMatches pat key uid = true
      · simp [firstMatchingPerms, List.find?, hm] at hfind
        subst hfind
        simp [hasPermission, hasPermissionGo, hm]
      · have hm2 : patMatches pat key uid = false := by
          cases hq : patMatches pat key uid
          · rfl
          · exact absurd hq hm
        have hfind2 : firstMatchingPerms rest key uid = some perms := by
          simpa [firstMatchingPerms, List.find?, hm2] using hfind
        have := ih hfind2
        cases rest with
        | nil => simp [firstMatchingPerms] at hfind2
        | cons r2 rest2 =>
          simp only [hasPermission, List.isEmpty] at this ⊢
          conv_lhs => rw [hasPermissionGo]
          simp only [hm2, Bool.false_eq_true, if_false, ite_false]
          exact this
  · intro rules key action uid hne hfind
    induction rules with
    | nil => exact absurd rfl hne
    | cons r rest ih =>
      obtain ⟨pat, ps⟩ := r
      by_cases hm : patMatches pat key uid = true
      · simp [firstMatchingPerms, List.find?, hm] at hfind
      · have hm2 : patMatches pat key uid = false := by
          cases hq : patMatches pat key uid
          · rfl
          · exact absurd hq hm
        have hfind2 : firstMatchingPerms rest key uid = none := by
          simpa [firstMatchingPerms, List.find?, hm2] using hfind
        cases rest with
        | nil => simp [hasPermission, hasPermissionGo, hm2]
        | cons r2 rest2 =>
          have := ih (by simp) hfind2
          simp only [hasPermission, List.isEmpty] at this ⊢
          conv_lhs => rw [hasPermissionGo]
          simp only [hm2, Bool.false_eq_true, if_false, ite_false]
          exact this

/-- Witness for C2: a two-rule set where the second rule matches the key
b and grants write but not read, and a key c that no rule matches. -/
theorem C2_fail_closed_access_control_witness :
    (hasPermission [] "anything" .del none = true) ∧
    (firstMatchingPerms
        [(Pattern.pstr "a" (some (fun k => k = "a")), [Permission.read]),
         (Pattern.pstr "b" (some (fun k => k = "b")), [Permission.write])] "b" none =
      some [Permission.write] ∧
     hasPermission
        [(Pattern.pstr "a" (some (fun k => k = "a")), [Permission.read]),
         (Pattern.pstr "b" (some (fun k => k = "b")), [Permission.write])] "b" .read none =
      false) ∧
    (firstMatchingPerms
        [(Pattern.pstr "a" (some (fun k => k = "a")), [Permission.read])] "c" none = none ∧
     hasPermission
        [(Pattern.pstr "a" (some (fun k => k = "a")), [Permission.read])] "c" .read none =
      false) :=
  ⟨C2_fail_closed_access_control.1 "anything" .del none,
   ⟨by simp [firstMatchingPerms, List.find?, patMatches],
    C2_fail_closed_access_control.2.1 _ "b" .read none [Permission.write]
      (by simp [firstMatchingPerms, List.find?, patMatches])⟩,
   ⟨by simp [firstMatchingPerms, List.find?, patMatches],
    C2_fail_closed_access_control.2.2 _ "c" .read none (by simp)
      (by simp [firstMatchingPerms, List.find?, patMatches])⟩⟩

/-- C9: Access-rule isolation between store instances.  In a world of two
stores with different namespaces, adding an access rule on either store
leaves the other store entirely unchanged, and in particular every
permission check on the other store returns exactly what it returned
before.  This is structural in createStore: every instance owns fresh
access-rule and consent maps and a fresh regex cache. -/
theorem C9_access_rule_isolation (w : TwoStores) (p : Pattern) (perms : List Permission)
    (k : String) (a : Permission) (uid : Option String)
    (hns : w.fst.nsName ≠ w.snd.nsName) :
    ((addRuleOnFirst w p perms).snd = w.snd ∧
      storeHasPermission (addRuleOnFirst w p perms).snd k a uid =
        storeHasPermission w.snd k a uid) ∧
    ((addRuleOnSecond w p perms).fst = w.fst ∧
      storeHasPermission (addRuleOnSecond w p perms).fst k a uid =
        storeHasPermission w.fst k a uid) :=
  ⟨⟨rfl, rfl⟩, ⟨rfl, rfl⟩⟩

/-- Witness for C9: two freshly created stores with namespaces gstate and
other; an admin rule for every key added to the first leaves a read check
on the second unchanged. -/
theorem C9_access_rule_isolation_witness :
    ((createStore {}).nsName ≠ (createStore { nsName := some "other" }).nsName) ∧
    (storeHasPermission
        (addRuleOnFirst
          { fst := createStore {}, snd := createStore { nsName := some "other" } }
          (Pattern.pstr "secret" (some (fun k => k = "secret"))) [Permission.admin]).snd
        "secret" .read none =
      storeHasPermission (createStore { nsName := some "other" }) "secret" .read none) :=
  ⟨by decide,
   (C9_access_rule_isolation
      { fst := createStore {}, snd := createStore { nsName := some "other" } }
      (Pattern.pstr "secret" (some (fun k => k = "secret"))) [Permission.admin]
      "secret" .read none (by decide)).1.2⟩

/-- Counterexample for C3: a store whose only plugin has an onBeforeSet
hook that always throws.  The claim says the exception propagates out of
set and the write is aborted before commit; instead set returns true, the
value is stored, the version is bumped, and the hook error is merely
reported to the error channel. -/
theorem C3_counterexample_veto_does_not_propagate :
    vetoRun.2 = .ok true ∧
    storedAt vetoRun.1 "a" = .vnum 1 ∧
    versionOf vetoRun.1 "a" = 1 ∧
    Event.errorReported "plugin:veto:onBeforeSet" (some "a") ∈ vetoRun.1.trace :=
  ⟨by decide, rfl, by decide, by decide⟩

/-- C3 amended: a throw from any hook, onBeforeSet included, is caught
where the hook ran: running a hook pass only appends the error reports of
throwing handlers to the trace and changes nothing else, and a write that
satisfies the commit conditions commits and stores its processed value
whatever the installed plugins do - no hook can veto a write by throwing,
and no hook throw escapes set, get or remove. -/
theorem C3_hook_errors_isolated :
    (∀ (s : StoreState) (n : HookName) (i : HookInput),
      runHook s n i = { s with trace := s.trace ++ hookEvents s.plugins n i }) ∧
    (∀ (f : Nat) (s : StoreState) (k : String) (v : Value) (p : Bool),
      validateKey k = true →
      s.accessRules = [] →
      isEqual (storedAt s k) (processedOf s.validateInput v) = false →
      assoc s.computedDeps k = none →
      (set (f + 2) s k v p).2 = .ok true ∧
      storedAt (set (f + 2) s k v p).1 k = processedOf s.validateInput v) := by
  constructor
  · exact runHook_eq
  · intro f s k v p hv hperm hchg hdeps
    obtain ⟨c1, cstore, _⟩ := set_commit f s k v p hv hperm hchg hdeps
    refine ⟨c1, ?_⟩
    unfold storedAt
    rw [cstore, assoc_assocSet_self]
    rfl

/-- Witness for C3: the commit conditions hold on the veto store, so the
write commits and stores one despite the throwing onBeforeSet hook. -/
theorem C3_hook_errors_isolated_witness :
    (validateKey "a" = true ∧ vetoStore.accessRules = [] ∧
      isEqual (storedAt vetoStore "a")
        (processedOf vetoStore.validateInput (Value.vnum 1)) = false) ∧
    ((set 2 vetoStore "a" (Value.vnum 1) false).2 = .ok true ∧
      storedAt (set 2 vetoStore "a" (Value.vnum 1) false).1 "a" =
        processedOf vetoStore.validateInput (Value.vnum 1)) :=
  ⟨⟨by decide, rfl, by decide⟩,
   C3_hook_errors_isolated.2 0 vetoStore "a" (Value.vnum 1) false (by decide) rfl
     (by decide) rfl⟩

/-- C5: the computed chain of the stress test evaluated on the store of
src/core/store.ts.  The five links are registered over a base key holding
zero, then base is set to ten.  The claim (and the stress test of the
repository) expects the top of the chain to compute fifteen; the code
yields one, because the recording getter of _updateComputed reads through
instance.get, which consults only the backing store map and never the
cached computed values, so every link except the first reads undefined.
The first link does recompute to eleven and the write itself commits. -/
theorem C5_computed_chain_code_bug :
    chainResult = .vnum 1 ∧
    chainResult ≠ .vnum 15 ∧
    ((assoc chainAfterSet.computed "l1").map (fun c => c.lastValue)).getD .vnull =
      .vnum 11 ∧
    versionOf chainAfterSet "base" = 2 := by
  refine ⟨rfl, ?_, rfl, by decide⟩
  intro h
  rw [show chainResult = Value.vnum 1 from rfl] at h
  injection h with h2
  exact absurd h2 (by decide)

theorem evalS_fst (sel : SExpr) : ∀ s : StoreState,
    (evalS sel s).1 = { s with trace := (evalS sel s).1.trace } := by
  induction sel with
  | lit v => intro s; rfl
  | readKey k =>
    intro s
    have hg := get_snd s k
    simp only [evalS]
    rcases hG : get s k with ⟨v, s1⟩
    rw [hG] at hg
    exact hg
  | orElse a b iha ihb =>
    intro s
    simp only [evalS]
    rcases hA : evalS a s with ⟨s1, d1, r1⟩
    have h1 : s1 = { s with trace := s1.trace } := by
      have := iha s
      rw [hA] at this
      exact this
    cases r1 with
    | error e => exact h1
    | ok va =>
      by_cases ht : truthy va = true
      · simp only [ht, if_true, ite_true]
        exact h1
      · have ht2 : truthy va = false := by
          cases hq : truthy va
          · rfl
          · exact absurd hq ht
        simp only [ht2, Bool.false_eq_true, if_false, ite_false]
        rcases hB : evalS b s1 with ⟨s2, d2, r2⟩
        have h2 : s2 = { s1 with trace := s2.trace } := by
          have := ihb s1
          rw [hB] at this
          exact this
        simp only [hB]
        exact trace_ext_trans h1 h2
  | addE a b iha ihb =>
    intro s
    simp only [evalS]
    rcases hA : evalS a s with ⟨s1, d1, r1⟩
    have h1 : s1 = { s with trace := s1.trace } := by
      have := iha s
      rw [hA] at this
      exact this
    cases r1 with
    | error e => exact h1
    | ok va =>
      rcases hB : evalS b s1 with ⟨s2, d2, r2⟩
      have h2 : s2 = { s1 with trace := s2.trace } := by
        have := ihb s1
        rw [hB] at this
        exact this
      simp only [hB]
      cases r2 with
      | error e => exact trace_ext_trans h1 h2
      | ok vb => exact trace_ext_trans h1 h2
  | condEq a w tb eb iha ihtb iheb =>
    intro s
    simp only [evalS]
    rcases hA : evalS a s with ⟨s1, d1, r1⟩
    have h1 : s1 = { s with trace := s1.trace } := by
      have := iha s
      rw [hA] at this
      exact this
    cases r1 with
    | error e => exact h1
    | ok va =>
      by_cases hsq : strictEq va w = true
      · simp only [hsq, if_true, ite_true]
        rcases hB : evalS tb s1 with ⟨s2, d2, r2⟩
        have h2 : s2 = { s1 with trace := s2.trace } := by
          have := ihtb s1
          rw [hB] at this
          exact this
        simp only [hB]
        exact trace_ext_trans h1 h2
      · have hsq2 : strictEq va w = false := by
          cases hq : strictEq va w
          · rfl
          · exact absurd hq hsq
        simp only [hsq2, Bool.false_eq_true, if_false, ite_false]
        rcases hB : evalS eb s1 with ⟨s2, d2, r2⟩
        have h2 : s2 = { s1 with trace := s2.trace } := by
          have := iheb s1
          rw [hB] at this
          exact this
        simp only [hB]
        exact trace_ext_trans h1 h2
  | raiseErr m => intro s; rfl

/-- Counterexample for C6: on a fresh store with computed key c over a
selector that throws when x holds one, the write of one to x commits the
value and then throws out of set; nothing is reported to the error
channel under the compute operation, and the cached value and version of
c are exactly what they were before the write. -/
theorem C6_counterexample_recompute_error_escapes :
    throwSelRun.2 = .threw "boom" ∧
    storedAt throwSelRun.1 "x" = .vnum 1 ∧
    ((assoc throwSelRun.1.computed "c").map (fun c => c.lastValue)).getD .vnull = .undef ∧
    versionOf throwSelRun.1 "c" = 1 ∧
    ((assoc throwSelStore.computed "c").map (fun c => c.lastValue)).getD .vnull = .undef ∧
    versionOf throwSelStore "c" = 1 ∧
    Event.errorReported "compute" (some "c") ∉ throwSelRun.1.trace :=
  ⟨by decide, rfl, rfl, by decide, rfl, by decide, by decide⟩

/-- C6 amended: when the selector of a registered computed key throws
during recomputation, _updateComputed propagates the exception to its
caller with the state the evaluation left behind (so it escapes the
triggering set or remove, uncaught and unreported), and the computed
entry and the version of the computed key are unchanged - only the eager
initial evaluation inside compute is caught and reported. -/
theorem C6_recompute_error_propagates :
    (∀ (f : Nat) (s : StoreState) (key : String) (comp : ComputedEntry)
      (s1 : StoreState) (ds : List String) (e : String),
      assoc s.computed key = some comp →
      evalS comp.selector s = (s1, ds, .error e) →
      updateComputed (f + 1) s key = (s1, some e) ∧
      assoc s1.computed key = some comp ∧
      versionOf s1 key = versionOf s key) ∧
    (throwSelRun.2 = .threw "boom" ∧
      ((assoc throwSelRun.1.computed "c").map (fun c => c.lastValue)).getD .vnull =
        ((assoc throwSelStore.computed "c").map (fun c => c.lastValue)).getD .vnull ∧
      versionOf throwSelRun.1 "c" = versionOf throwSelStore "c") := by
  constructor
  · intro f s key comp s1 ds e hc he
    have hfst : s1 = { s with trace := s1.trace } := by
      have := evalS_fst comp.selector s
      rw [he] at this
      exact this
    refine ⟨?_, ?_, ?_⟩
    · simp only [updateComputed, hc, he]
    · rw [hfst]
      exact hc
    · unfold versionOf
      rw [hfst]
  · exact ⟨by decide, rfl, by decide⟩

/-- Witness for C6: a store whose computed key c carries an always
throwing selector; updateComputed propagates the error and preserves the
entry. -/
theorem C6_recompute_error_propagates_witness :
    (assoc
        ({ createStore {} with computed :=
          [("c", { selector := SExpr.raiseErr "x", lastValue := Value.vnull, deps := [] })] }
          : StoreState).computed "c" =
      some { selector := SExpr.raiseErr "x", lastValue := Value.vnull, deps := [] }) ∧
    (updateComputed 1
        ({ createStore {} with computed :=
          [("c", { selector := SExpr.raiseErr "x", lastValue := Value.vnull, deps := [] })] }
          : StoreState) "c" =
      (({ createStore {} with computed :=
          [("c", { selector := SExpr.raiseErr "x", lastValue := Value.vnull, deps := [] })] }
          : StoreState), some "x")) :=
  ⟨rfl,
   (C6_recompute_error_propagates.1 0
     ({ createStore {} with computed :=
       [("c", { selector := SExpr.raiseErr "x", lastValue := Value.vnull, deps := [] })] })
     "c" { selector := SExpr.raiseErr "x", lastValue := Value.vnull, deps := [] }
     _ [] "x" rfl rfl).1⟩

/-- C10: with input validation enabled (the default), set does not store
the given value verbatim: the committed value is sanitizeValue of the
input (applied before freezing and commit), which rewrites dangerous
fragments in strings, also inside plain objects and arrays - script,
iframe, object, embed, svg, form, base, link, meta and style tag pairs
and the javascript:, vbscript: and data:text/html prefixes become
[SEC-REMOVED], inline handler attributes keep only their equals sign
after [SEC-REMOVED], and numeric HTML entities are removed - so a
subsequent get can return a value that is not deep-equal to the value
passed to set. -/
theorem C10_sanitization_on_set :
    (∀ (f : Nat) (s : StoreState) (k : String) (v : Value) (p : Bool),
      s.validateInput = true →
      validateKey k = true →
      s.accessRules = [] →
      isEqual (storedAt s k) (processedOf s.validateInput v) = false →
      assoc s.computedDeps k = none →
      storedAt (set (f + 2) s k v p).1 k = sanitizeValue v) ∧
    (sanitizeString "<script>alert(1)</script>" = "[SEC-REMOVED]" ∧
     sanitizeString "<iframe src=x></iframe>" = "[SEC-REMOVED]" ∧
     sanitizeString "<object>o</object>" = "[SEC-REMOVED]" ∧
     sanitizeString "<embed a></embed>" = "[SEC-REMOVED]" ∧
     sanitizeString "<svg>p</svg>" = "[SEC-REMOVED]" ∧
     sanitizeString "<form>f</form>" = "[SEC-REMOVED]" ∧
     sanitizeString "<base h></base>" = "[SEC-REMOVED]" ∧
     sanitizeString "<link r></link>" = "[SEC-REMOVED]" ∧
     sanitizeString "<meta c></meta>" = "[SEC-REMOVED]" ∧
     sanitizeString "<style>s</style>" = "[SEC-REMOVED]" ∧
     sanitizeString "javascript:alert(1)" = "[SEC-REMOVED]alert(1)" ∧
     sanitizeString "VBScript:x" = "[SEC-REMOVED]x" ∧
     sanitizeString "data:text/html,payload" = "[SEC-REMOVED],payload" ∧
     sanitizeString "onclick = doIt" = "[SEC-REMOVED]= doIt" ∧
     sanitizeString "onclick =doIt()" = "[SEC-REMOVED]=doIt()" ∧
     sanitizeString "&#x41;&#66;rest" = "rest") ∧
    (sanitizeValue
        (.vobj (.cons "x" (.vstr "<script>a</script>")
          (.cons "y" (.varr (.cons (.vstr "javascript:go") .nil)) .nil))) =
      .vobj (.cons "x" (.vstr "[SEC-REMOVED]")
        (.cons "y" (.varr (.cons (.vstr "[SEC-REMOVED]go") .nil)) .nil))) ∧
    ((get sanitizeRun.1 "a").1 = .vstr "[SEC-REMOVED]alert(1)" ∧
     isEqual (get sanitizeRun.1 "a").1 (.vstr "javascript:alert(1)") = false) := by
  refine ⟨?_, ?_, rfl, rfl, rfl⟩
  · intro f s k v p hVI hv hperm hchg hdeps
    obtain ⟨_, cstore, _⟩ := set_commit f s k v p hv hperm hchg hdeps
    unfold storedAt
    rw [cstore, assoc_assocSet_self]
    show processedOf s.validateInput v = _
    rw [hVI]
    rfl
  · exact ⟨rfl, rfl, rfl, rfl, rfl, rfl, rfl, rfl, rfl, rfl, rfl, rfl, rfl, rfl, rfl, rfl⟩

/-- Witness for C10: on a fresh default store, writing the string
javascript:alert(1) stores its sanitized form. -/
theorem C10_sanitization_on_set_witness :
    ((createStore {}).validateInput = true ∧ validateKey "a" = true ∧
      isEqual (storedAt (createStore {}) "a")
        (processedOf (createStore {}).validateInput (.vstr "javascript:alert(1)")) = false) ∧
    storedAt (set 2 (createStore {}) "a" (.vstr "javascript:alert(1)") false).1 "a" =
      sanitizeValue (.vstr "javascript:alert(1)") :=
  ⟨⟨rfl, rfl, rfl⟩,
   C10_sanitization_on_set.1 0 (createStore {}) "a" (.vstr "javascript:alert(1)") false
     rfl rfl rfl rfl rfl⟩

theorem map_perKey_congr (s1 s : StoreState) (hw : s1.watchers = s.watchers)
    (hk : s1.keyListeners = s.keyListeners) (l : List (String × Value)) :
    l.map (fun kv => perKeyNotifBlock s1 kv.1) = l.map (fun kv => perKeyNotifBlock s kv.1) := by
  have hb : ∀ k : String, perKeyNotifBlock s1 k = perKeyNotifBlock s k := by
    intro k
    unfold perKeyNotifBlock watcherNotifBlock keyListenerNotifBlock watchersFor keyListenersFor
    rw [hw, hk]
  induction l with
  | nil => rfl
  | cons x xs ih => simp [hb, ih]

theorem runOps_spec (ops : List (String × Value)) : ∀ (f : Nat) (s : StoreState),
    s.isTransaction = true →
    s.accessRules = [] →
    s.computedDeps = [] →
    (∀ kv ∈ ops, validateKey kv.1 = true) →
    (∀ kv ∈ ops, isEqual (storedAt s kv.1) (processedOf s.validateInput kv.2) = false) →
    (ops.map Prod.fst).Nodup →
    (runOps (f + 2) s ops).2 = none ∧
    (runOps (f + 2) s ops).1.isTransaction = true ∧
    (runOps (f + 2) s ops).1.computedDeps = [] ∧
    (runOps (f + 2) s ops).1.accessRules = [] ∧
    (runOps (f + 2) s ops).1.watchers = s.watchers ∧
    (runOps (f + 2) s ops).1.keyListeners = s.keyListeners ∧
    (runOps (f + 2) s ops).1.listeners = s.listeners ∧
    (runOps (f + 2) s ops).1.pendingEmit = (if ops.isEmpty then s.pendingEmit else true) ∧
    notifEvents (runOps (f + 2) s ops).1.trace =
      notifEvents s.trace ++ (ops.map (fun kv => perKeyNotifBlock s kv.1)).join := by
  induction ops with
  | nil =>
    intro f s hT hperm hcd _ _ _
    refine ⟨rfl, hT, hcd, hperm, rfl, rfl, rfl, by simp [runOps], by simp [runOps]⟩
  | cons kv rest ih =>
    intro f s hT hperm hcd hvalid hchg hnodup
    obtain ⟨k, v⟩ := kv
    have hv : validateKey k = true := hvalid (k, v) (by simp)
    have hc : isEqual (storedAt s k) (processedOf s.validateInput v) = false :=
      hchg (k, v) (by simp)
    have hdeps : assoc s.computedDeps k = none := by rw [hcd]; rfl
    obtain ⟨c1, cstore, cvers, cdq, ccomp, ccd, cw, ckl, cl, cplug, crules, cuid,
      cvalid2, ctrans, cpend, cnotif⟩ := set_commit f s k v false hv hperm hc hdeps
    rcases hS : set (f + 2) s k v false with ⟨s1, r⟩
    rw [hS] at c1 cstore cvers cdq ccomp ccd cw ckl cl cplug crules cuid cvalid2 ctrans cpend cnotif
    simp only at c1 cstore cvers cdq ccomp ccd cw ckl cl cplug crules cuid cvalid2 ctrans cpend cnotif
    subst c1
    have hknotin : k ∉ rest.map Prod.fst := by
      have := hnodup
      simp only [List.map_cons, List.nodup_cons] at this
      exact this.1
    have hnodup1 : (rest.map Prod.fst).Nodup := by
      have := hnodup
      simp only [List.map_cons, List.nodup_cons] at this
      exact this.2
    have hT1 : s1.isTransaction = true := by rw [ctrans]; exact hT
    have hperm1 : s1.accessRules = [] := by rw [crules]; exact hperm
    have hcd1 : s1.computedDeps = [] := by rw [ccd]; exact hcd
    have hvalid1 : ∀ kv2 ∈ rest, validateKey kv2.1 = true := by
      intro kv2 hm
      exact hvalid kv2 (by simp [hm])
    have hchg1 : ∀ kv2 ∈ rest,
        isEqual (storedAt s1 kv2.1) (processedOf s1.validateInput kv2.2) = false := by
      intro kv2 hm
      have hkne : kv2.1 ≠ k := by
        intro heq
        exact hknotin (heq ▸ List.mem_map_of_mem Prod.fst hm)
      have hstor : storedAt s1 kv2.1 = storedAt s kv2.1 := by
        unfold storedAt
        rw [cstore, assoc_assocSet_ne _ _ _ _ hkne]
      rw [hstor, cvalid2]
      exact hchg kv2 (by simp [hm])
    obtain ⟨i1, i2, i3, i4, i5, i6, i7, i8, i9⟩ := ih f s1 hT1 hperm1 hcd1 hvalid1 hchg1 hnodup1
    have hred : runOps (f + 2) s ((k, v) :: rest) = runOps (f + 2) s1 rest := by
      simp only [runOps, hS]
    rw [hred]
    refine ⟨i1, i2, i3, i4, ?_, ?_, ?_, ?_, ?_⟩
    · rw [i5, cw]
    · rw [i6, ckl]
    · rw [i7, cl]
    · rw [i8]
      have hpe : s1.pendingEmit = true := by rw [cpend, hT]; simp
      cases hre : rest.isEmpty <;> simp [hre, hpe]
    · rw [i9, cnotif, hT]
      rw [map_perKey_congr s1 s cw ckl rest]
      simp [List.append_assoc]

/-- C4: Transaction coalescing.  For every callback performing
value-changing writes to distinct valid keys, transaction fires each
per-key watcher and listener notification individually during the
callback, in write order, and fires exactly one notification pass to the
global subscribers, after all the writes complete: the notification
subtrace is exactly the concatenation of the per-key blocks in write
order followed by one global block. -/
theorem C4_transaction_coalescing (f : Nat) (s : StoreState) (ops : List (String × Value))
    (hperm : s.accessRules = [])
    (hcd : s.computedDeps = [])
    (hne : ops ≠ [])
    (hvalid : ∀ kv ∈ ops, validateKey kv.1 = true)
    (hchg : ∀ kv ∈ ops, isEqual (storedAt s kv.1) (processedOf s.validateInput kv.2) = false)
    (hnodup : (ops.map Prod.fst).Nodup) :
    (transaction (f + 2) s ops).2 = none ∧
    notifEvents (transaction (f + 2) s ops).1.trace =
      notifEvents s.trace ++ (ops.map (fun kv => perKeyNotifBlock s kv.1)).join ++
        globalNotifBlock s := by
  obtain ⟨i1, i2, i3, i4, i5, i6, i7, i8, i9⟩ :=
    runOps_spec ops f
      (runHook { s with isTransaction := true } .onTransaction { key := some "START" })
      rfl hperm hcd hvalid hchg hnodup
  rcases hR : runOps (f + 2)
      (runHook { s with isTransaction := true } .onTransaction { key := some "START" }) ops
    with ⟨s2, err⟩
  rw [hR] at i1 i2 i3 i4 i5 i6 i7 i8 i9
  simp only at i1 i2 i3 i4 i5 i6 i7 i8 i9
  subst i1
  have hpe2 : s2.pendingEmit = true := by
    rw [i8]
    cases hre : ops.isEmpty
    · simp
    · exact absurd (List.isEmpty_iff.mp hre) hne
  have hred : transaction (f + 2) s ops =
      ((emit (f + 2)
        { runHook { s2 with isTransaction := false } .onTransaction { key := some "END" } with
          pendingEmit := false } none).1, none) := by
    unfold transaction
    simp only [hR]
    simp only [runHook_eq, hpe2, ite_true]
  rw [hred]
  have hglob := emit_none_notrans (f + 1)
    ({ runHook { s2 with isTransaction := false } .onTransaction { key := some "END" } with
      pendingEmit := false }) rfl
  rw [hglob]
  refine ⟨rfl, ?_⟩
  rw [notifyGlobals_notif]
  have htr : notifEvents ({ runHook { s2 with isTransaction := false } .onTransaction
      { key := some "END" } with pendingEmit := false }).trace = notifEvents s2.trace := by
    simp [runHook_eq, notifEvents_append, notifEvents_hookEvents]
  rw [htr, i9]
  have hstart : notifEvents (runHook { s with isTransaction := true } .onTransaction
      { key := some "START" }).trace = notifEvents s.trace := by
    simp [runHook_eq, notifEvents_append, notifEvents_hookEvents]
  rw [hstart]
  have hmap : ops.map (fun kv => perKeyNotifBlock
      (runHook { s with isTransaction := true } .onTransaction { key := some "START" }) kv.1) =
      ops.map (fun kv => perKeyNotifBlock s kv.1) :=
    map_perKey_congr _ s rfl rfl ops
  rw [hmap]
  have hlist : ({ runHook { s2 with isTransaction := false } .onTransaction
      { key := some "END" } with pendingEmit := false }).listeners = s.listeners := by
    show s2.listeners = s.listeners
    rw [i7]
    rfl
  rw [hlist]
  rfl

theorem C4_transaction_coalescing_witness :
    (validateKey "a" = true ∧ validateKey "b" = true ∧
      isEqual (storedAt transWitnessStore "a")
        (processedOf transWitnessStore.validateInput (Value.vnum 1)) = false ∧
      isEqual (storedAt transWitnessStore "b")
        (processedOf transWitnessStore.validateInput (Value.vnum 2)) = false ∧
      (([("a", Value.vnum 1), ("b", Value.vnum 2)] : List (String × Value)).map
        Prod.fst).Nodup) ∧
    (transaction (0 + 2) transWitnessStore [("a", Value.vnum 1), ("b", Value.vnum 2)]).2 = none ∧
    notifEvents (transaction (0 + 2) transWitnessStore
        [("a", Value.vnum 1), ("b", Value.vnum 2)]).1.trace =
      notifEvents transWitnessStore.trace ++
        ([("a", Value.vnum 1), ("b", Value.vnum 2)].map
          (fun kv => perKeyNotifBlock transWitnessStore kv.1)).join ++
        globalNotifBlock transWitnessStore :=
  ⟨⟨rfl, rfl, rfl, rfl, by decide⟩,
   C4_transaction_coalescing 0 transWitnessStore [("a", Value.vnum 1), ("b", Value.vnum 2)]
     rfl rfl (by simp)
     (by
       intro kv hm
       simp only [List.mem_cons, List.not_mem_nil, or_false] at hm
       rcases hm with rfl | rfl <;> rfl)
     (by
       intro kv hm
       simp only [List.mem_cons, List.not_mem_nil, or_false] at hm
       rcases hm with rfl | rfl <;> rfl)
     (by decide)⟩

/-- C7: Accept-remote conflict resolution.  During a sync cycle, a
pending change whose last-known remote version is at or above its local
version is treated as a conflict; under the accept-remote strategy the
remote value is written into the local store for that key and the key
leaves the pending queue: after the cycle the store holds the remote
value at the key, the queue is empty, the key is reported synced, and no
error is recorded. -/
theorem C7_accept_remote_conflict (f now : Nat) (e : SyncEngine) (net : SyncNet)
    (k : String) (ch : PendingChange) (remote : RemoteVersion)
    (hsync : e.isSyncing = false)
    (hq : e.pendingQueue = [(k, ch)])
    (hrv : e.remoteVersions = [])
    (hoc : e.config.onConflict = fun _ => ConflictResolution.acceptRemote)
    (hfetch : net.fetchVersions = some [(k, remote)])
    (hconf : ch.version ≤ remote.version)
    (hv : validateKey k = true)
    (hrules : e.store.accessRules = [])
    (hdeps : assoc e.store.computedDeps k = none)
    (hchg : isEqual (storedAt e.store k)
      (processedOf e.store.validateInput remote.value) = false)
    (hsan : processedOf e.store.validateInput remote.value = remote.value) :
    storedAt (sync (f + 2) net now e).1.store k = remote.value ∧
    (sync (f + 2) net now e).1.pendingQueue = [] ∧
    (sync (f + 2) net now e).2.syncedKeys = [k] ∧
    (sync (f + 2) net now e).2.errors = [] ∧
    (sync (f + 2) net now e).2.success = true ∧
    (sync (f + 2) net now e).2.conflicts =
      [{ key := k, localValue := ch.value, remoteValue := remote.value,
         localVersion := ch.version, remoteVersion := remote.version,
         timestamp := ch.timestamp }] := by
  have hc := set_commit f e.store k remote.value false hv hrules hchg hdeps
  have c1 := hc.1
  have cstore := hc.2.1
  rcases hS : set (f + 2) e.store k remote.value false with ⟨s1, r⟩
  rw [hS] at c1 cstore
  simp only at c1 cstore
  subst c1
  have hred : sync (f + 2) net now e =
      ({ e with
          store := s1
          remoteVersions := [(k, remote)]
          pendingQueue := []
          isSyncing := false },
        { success := true
          syncedKeys := [k]
          conflicts := [{ key := k, localValue := ch.value, remoteValue := remote.value,
                          localVersion := ch.version, remoteVersion := remote.version,
                          timestamp := ch.timestamp }]
          errors := [] }) := by
    unfold sync
    simp only [hsync, hq, hrv, hfetch, hoc, Bool.false_eq_true, if_false, ite_false,
      List.isEmpty_cons, fetchMerge, List.foldl_cons, List.foldl_nil, assocSet,
      syncRun, syncStep, assoc, eq_self_iff_true, if_true, ite_true, hconf,
      resolveConflict, hS, assocErase, List.isEmpty_nil, List.nil_append]
  rw [hred]
  refine ⟨?_, rfl, rfl, rfl, rfl, rfl⟩
  show storedAt s1 k = remote.value
  simp only [storedAt, cstore, assoc_assocSet_self, Option.getD_some]
  exact hsan

theorem C7_accept_remote_conflict_witness :
    ((1 : Nat) ≤ 2 ∧ validateKey "x" = true ∧
      isEqual (storedAt acceptRemoteEngine.store "x")
        (processedOf acceptRemoteEngine.store.validateInput acceptRemoteRecord.value) = false) ∧
    storedAt (sync (0 + 2) acceptRemoteNet 0 acceptRemoteEngine).1.store "x" =
      acceptRemoteRecord.value ∧
    (sync (0 + 2) acceptRemoteNet 0 acceptRemoteEngine).1.pendingQueue = [] ∧
    (sync (0 + 2) acceptRemoteNet 0 acceptRemoteEngine).2.syncedKeys = ["x"] ∧
    (sync (0 + 2) acceptRemoteNet 0 acceptRemoteEngine).2.errors = [] :=
  ⟨⟨Nat.le_succ 1, rfl, rfl⟩,
   (C7_accept_remote_conflict 0 0 acceptRemoteEngine acceptRemoteNet "x"
      { value := .vstr "L", timestamp := 0, version := 1 } acceptRemoteRecord
      rfl rfl rfl rfl rfl (Nat.le_succ 1) rfl rfl rfl rfl rfl).1,
   (C7_accept_remote_conflict 0 0 acceptRemoteEngine acceptRemoteNet "x"
      { value := .vstr "L", timestamp := 0, version := 1 } acceptRemoteRecord
      rfl rfl rfl rfl rfl (Nat.le_succ 1) rfl rfl rfl rfl rfl).2.1,
   (C7_accept_remote_conflict 0 0 acceptRemoteEngine acceptRemoteNet "x"
      { value := .vstr "L", timestamp := 0, version := 1 } acceptRemoteRecord
      rfl rfl rfl rfl rfl (Nat.le_succ 1) rfl rfl rfl rfl rfl).2.2.1,
   (C7_accept_remote_conflict 0 0 acceptRemoteEngine acceptRemoteNet "x"
      { value := .vstr "L", timestamp := 0, version := 1 } acceptRemoteRecord
      rfl rfl rfl rfl rfl (Nat.le_succ 1) rfl rfl rfl rfl rfl).2.2.2.1⟩

theorem pushLoop_netThrow (net : SyncNet) (now : Nat) (k : String) (v : Value) (m : String)
    (hp : ∀ a, net.push k a = .netThrow m) :
    ∀ r attempt rv, pushLoop net now k v (r + 1) attempt rv = (rv, some m) := by
  intro r
  induction r with
  | zero =>
    intro attempt rv
    simp [pushLoop, hp]
  | succ n ih =>
    intro attempt rv
    have h1 : pushLoop net now k v (n + 1 + 1) attempt rv
        = pushLoop net now k v (n + 1) (attempt + 1) rv := by
      conv_lhs => rw [pushLoop]
      simp [hp]
    rw [h1]
    exact ih (attempt + 1) rv

/-- Counterexample for C8: a pending change whose every push attempt
comes back as a non-ok response exhausts the retry loop without an
error: the cycle reports success, marks the key synced, removes it from
the pending queue, and records no error — the retry counter is
incremented past the bound without a throw, so _pushChange returns
normally and sync treats the key as pushed. -/
theorem C8_counterexample_notok_exhaustion_silent :
    notOkRun.2.errors = [] ∧
    notOkRun.2.success = true ∧
    notOkRun.2.syncedKeys = ["k"] ∧
    notOkRun.1.pendingQueue = [] :=
  ⟨rfl, rfl, rfl, rfl⟩

/-- C8 (amended): retry exhaustion by thrown network errors keeps the
key pending.  When every push attempt for a key throws, the last attempt
propagates the error: sync records a per-key sync error, the key stays
in the pending queue for the next cycle, the local store is untouched,
and the remaining pending keys of the cycle are still processed — a key
whose push succeeds is synced and removed.  (Exhaustion by non-ok
responses, by contrast, returns silently: see the counterexample.) -/
theorem C8_retry_exhaustion (f now mr : Nat) (e : SyncEngine) (net : SyncNet)
    (k1 k2 : String) (c1 c2 : PendingChange) (m : String)
    (hsync : e.isSyncing = false)
    (hq : e.pendingQueue = [(k1, c1), (k2, c2)])
    (hrv : e.remoteVersions = [])
    (hmr : e.config.maxRetries = mr + 1)
    (hfetch : net.fetchVersions = some [])
    (hp1 : ∀ a, net.push k1 a = .netThrow m)
    (hp2 : ∀ a, net.push k2 a = .okWith none none)
    (hne : k1 ≠ k2) :
    (sync (f + 2) net now e).2.errors = [syncErrMsg k1 m] ∧
    (sync (f + 2) net now e).1.pendingQueue = [(k1, c1)] ∧
    (sync (f + 2) net now e).2.syncedKeys = [k2] ∧
    (sync (f + 2) net now e).2.success = false ∧
    (sync (f + 2) net now e).1.store = e.store := by
  have hpl1 : pushLoop net now k1 c1.value (mr + 1) 0 [] = ([], some m) :=
    pushLoop_netThrow net now k1 c1.value m hp1 mr 0 []
  have hpl2 : pushLoop net now k2 c2.value (mr + 1) 0 [] = ([], none) := by
    simp [pushLoop, hp2]
  have hred : sync (f + 2) net now e =
      ({ e with
          store := e.store
          remoteVersions := []
          pendingQueue := [(k1, c1)]
          isSyncing := false },
        { success := false
          syncedKeys := [k2]
          conflicts := []
          errors := [syncErrMsg k1 m] }) := by
    unfold sync
    simp only [hsync, hq, hrv, hfetch, hmr, Bool.false_eq_true, if_false, ite_false,
      List.isEmpty_cons, fetchMerge, List.foldl_nil, syncRun, syncStep, assoc,
      pushChange, hpl1, hpl2, assocErase, hne, eq_self_iff_true, if_true, ite_true,
      List.nil_append, List.isEmpty_nil]
  rw [hred]
  exact ⟨rfl, rfl, rfl, rfl, rfl⟩

theorem C8_retry_exhaustion_witness :
    ("p" ≠ "q") ∧
    (sync (0 + 2) exhaustNet 0 exhaustEngine).2.errors = [syncErrMsg "p" "offline"] ∧
    (sync (0 + 2) exhaustNet 0 exhaustEngine).1.pendingQueue =
      [("p", { value := .vnum 1, timestamp := 0, version := 1 })] ∧
    (sync (0 + 2) exhaustNet 0 exhaustEngine).2.syncedKeys = ["q"] ∧
    (sync (0 + 2) exhaustNet 0 exhaustEngine).2.success = false :=
  ⟨by decide,
   (C8_retry_exhaustion 0 0 2 exhaustEngine exhaustNet "p" "q"
      { value := .vnum 1, timestamp := 0, version := 1 }
      { value := .vnum 2, timestamp := 0, version := 1 } "offline"
      rfl rfl rfl rfl rfl (fun _ => rfl) (fun _ => rfl) (by decide)).1,
   (C8_retry_exhaustion 0 0 2 exhaustEngine exhaustNet "p" "q"
      { value := .vnum 1, timestamp := 0, version := 1 }
      { value := .vnum 2, timestamp := 0, version := 1 } "offline"
      rfl rfl rfl rfl rfl (fun _ => rfl) (fun _ => rfl) (by decide)).2.1,
   (C8_retry_exhaustion 0 0 2 exhaustEngine exhaustNet "p" "q"
      { value := .vnum 1, timestamp := 0, version := 1 }
      { value := .vnum 2, timestamp := 0, version := 1 } "offline"
      rfl rfl rfl rfl rfl (fun _ => rfl) (fun _ => rfl) (by decide)).2.2.1,
   (C8_retry_exhaustion 0 0 2 exhaustEngine exhaustNet "p" "q"
      { value := .vnum 1, timestamp := 0, version := 1 }
      { value := .vnum 2, timestamp := 0, version := 1 } "offline"
      rfl rfl rfl rfl rfl (fun _ => rfl) (fun _ => rfl) (by decide)).2.2.2.1⟩

end RGS





